/-
Verification of the ffmpeg-tools validation and command-construction layer.

This file gives a shallow embedding, in Lean 4, of the parts of the
`ffmpeg_tools` Python package that the checked properties are about:

  * `frame_rate.py` — the exact-rational `FrameRate` value type;
  * `utils.py`      — the `SparseRange` integer-set type;
  * `codecs.py`     — the `VideoCodec` / `AudioCodec` / `SubtitleCodec`
                      registries and their conversion / encoder /
                      sample-rate tables;
  * `formats.py`    — the `Container` registry, demuxer maps and
                      per-container codec-support tables;
  * `meta.py`       — accessors over probed (ffprobe) metadata;
  * `commands.py`   — pure command builders and the stream-index
                      renumbering arithmetic;
  * `validation.py` — the validation pipeline.

Conventions of the embedding:

  * Dynamically-typed Python values (decoded ffprobe JSON, parameter
    dictionaries) are modelled by the inductive type `PyVal`.  Dictionaries
    are association lists in insertion order, mirroring CPython dicts;
    the dictionaries manipulated by this library never carry duplicate
    keys.  Python booleans and floats do not occur in the values the
    verified code paths manipulate and are not part of the model (the one
    float-typed operation, the comparison `FrameRate.to_float() > bound`,
    is embedded exactly, IEEE-754 binary64 rounding and the possible
    `OverflowError` included; see `to_float_gt`).
  * Raised exceptions are modelled with the `Except PyErr` monad.  The
    constructors of `PyErr` name the exception classes of `exceptions.py`
    plus the built-in exceptions the code can raise (`TypeError`,
    `KeyError`, `AttributeError`, `AssertionError`, `ValueError`,
    `OverflowError`).  Exception message strings are not modelled.
  * `assert` statements of the source are embedded as checks producing
    `PyErr.assertionError`.
-/
import Mathlib

/-- Exceptions: the classes of `exceptions.py` that the embedded code can
raise, plus the Python built-in exceptions.  Payload messages are not
modelled. -/
inductive PyErr where
  | typeError
  | keyError
  | attributeError
  | assertionError
  | valueError
  | overflowError
  | commandFailed
  | invalidArgument
  | invalidVideo
  | unsupportedVideoFormat
  | unsupportedTargetVideoFormat
  | unsupportedVideoCodec
  | unsupportedAudioCodec
  | unsupportedSubtitleCodec
  | missingVideoStream
  | missingVideoCodec
  | invalidFormatMetadata
  | invalidResolution
  | invalidFrameRate
  | unsupportedVideoCodecConversion
  | unsupportedAudioCodecConversion
  | unsupportedSubtitleCodecConversion
  | unsupportedStream
  | unsupportedSampleRate
  | unsupportedAudioChannelLayout
  deriving DecidableEq, Repr

/-- Dynamically-typed Python values: `None`, integers, strings, lists and
(string-keyed, insertion-ordered) dictionaries.  This covers every value
the embedded code paths manipulate. -/
inductive PyVal where
  | none
  | int (n : Int)
  | str (s : String)
  | list (xs : List PyVal)
  | dict (kvs : List (String × PyVal))

mutual

/-- Python `==` on the modelled values.  Values of different kinds compare
unequal (as in Python for these kinds); lists and dictionaries compare
elementwise.  (CPython compares dictionaries order-insensitively; the
embedded code only ever compares strings, integers and `None` with `==`,
where the structural comparison coincides.) -/
def PyVal.pyEq : PyVal → PyVal → Bool
  | .none, .none => true
  | .int a, .int b => a == b
  | .str a, .str b => a == b
  | .list xs, .list ys => PyVal.pyEqList xs ys
  | .dict xs, .dict ys => PyVal.pyEqKvs xs ys
  | _, _ => false

/-- Elementwise `==` on Python lists. -/
def PyVal.pyEqList : List PyVal → List PyVal → Bool
  | [], [] => true
  | x :: xs, y :: ys => PyVal.pyEq x y && PyVal.pyEqList xs ys
  | _, _ => false

/-- Entrywise `==` on dictionary entries. -/
def PyVal.pyEqKvs : List (String × PyVal) → List (String × PyVal) → Bool
  | [], [] => true
  | (k, v) :: xs, (l, w) :: ys =>
    k == l && PyVal.pyEq v w && PyVal.pyEqKvs xs ys
  | _, _ => false

end

instance : BEq PyVal := ⟨PyVal.pyEq⟩

namespace PyVal

/-- `d.get(key, default)` on a dictionary; any other receiver raises
`AttributeError` (no other modelled value has a `get` method). -/
def get (v : PyVal) (key : String) (dflt : PyVal) : Except PyErr PyVal :=
  match v with
  | .dict kvs => .ok ((kvs.lookup key).getD dflt)
  | _ => .error .attributeError

/-- `d[key]` on a dictionary: `KeyError` when the key is absent,
`TypeError` when the receiver is not subscriptable by a string. -/
def item (v : PyVal) (key : String) : Except PyErr PyVal :=
  match v with
  | .dict kvs =>
    match kvs.lookup key with
    | some x => .ok x
    | Option.none => .error .keyError
  | _ => .error .typeError

/-- `key in d` on a dictionary (`TypeError` otherwise). -/
def hasKey (v : PyVal) (key : String) : Except PyErr Bool :=
  match v with
  | .dict kvs => .ok ((kvs.lookup key).isSome)
  | _ => .error .typeError

/-- Iterating over a value: only lists are iterable in the model. -/
def iter (v : PyVal) : Except PyErr (List PyVal) :=
  match v with
  | .list xs => .ok xs
  | _ => .error .typeError

/-- Python truthiness on the modelled values: `None`, `0`, `""`, `[]` and
`{}` are falsy, everything else truthy. -/
def truthy : PyVal → Bool
  | .none => false
  | .int n => n ≠ 0
  | .str s => s ≠ ""
  | .list xs => ¬ xs.isEmpty
  | .dict kvs => ¬ kvs.isEmpty

/-- `value in xs` for a Python list of values. -/
def memList (x : PyVal) (xs : List PyVal) : Bool := xs.contains x

end PyVal

/-- ASCII whitespace as `str.strip()` removes it. -/
def isPySpace (c : Char) : Bool :=
  c = ' ' ∨ c = '\t' ∨ c = '\n' ∨ c = '\r' ∨ c = '\x0b' ∨ c = '\x0c'

/-- `str.strip()` on a character list: drop whitespace from both ends. -/
def pyStripChars (cs : List Char) : List Char :=
  ((cs.dropWhile isPySpace).reverse.dropWhile isPySpace).reverse

/-- Digit run of Python `int(s)` (ASCII scope): decimal digits with
single underscores permitted between digits.  `lastUnderscore` tracks
whether the previous character was an underscore (a trailing or doubled
underscore is rejected). -/
def pyDigitsAux : List Char → Bool → Nat → Option Nat
  | [], lastUnderscore, acc =>
    if lastUnderscore then Option.none else some acc
  | c :: cs, lastUnderscore, acc =>
    if c = '_' then
      if lastUnderscore then Option.none else pyDigitsAux cs true acc
    else if c.isDigit then pyDigitsAux cs false (acc * 10 + (c.toNat - 48))
    else Option.none

/-- Digit-sequence parser: the first character must be a digit. -/
def pyNatOfChars (cs : List Char) : Option Nat :=
  match cs with
  | [] => Option.none
  | c :: _ => if c.isDigit then pyDigitsAux cs false 0 else Option.none

/-- Python `int(s)` on a character list: optional single sign, then the
digit run. -/
def pyIntOfChars (cs0 : List Char) : Option Int :=
  match pyStripChars cs0 with
  | '+' :: cs => (pyNatOfChars cs).map (Int.ofNat)
  | '-' :: cs => (pyNatOfChars cs).map (fun n => -(Int.ofNat n))
  | cs => (pyNatOfChars cs).map (Int.ofNat)

/-- Python `int(s)`: fails (ValueError) by returning `none`. -/
def pyIntOfString (s : String) : Option Int :=
  pyIntOfChars s.data

/-! ## `frame_rate.py` — the `FrameRate` value type -/

/-- `FrameRate` from `frame_rate.py`: a named tuple of a dividend and a
divisor.  The constructor performs no validation (as in Python); the
`decode` entry points reject negative components and a zero divisor. -/
structure FrameRate where
  dividend : Int
  divisor : Int := 1
  deriving DecidableEq, Repr

namespace FrameRate

/-- `FrameRate.from_collection`: accepts a 1- or 2-element collection of
integers, rejects negative components and a zero divisor.  The only error
the Python code raises here is `ValueError`. -/
def from_collection (collection : List PyVal) : Except PyErr FrameRate :=
  if collection.length = 1 ∨ collection.length = 2 then
    match collection with
    | [PyVal.int dividend] =>
      if dividend < 0 then .error .valueError
      else .ok ⟨dividend, 1⟩
    | [PyVal.int dividend, PyVal.int divisor] =>
      if dividend < 0 ∨ divisor < 0 then .error .valueError
      else if divisor = 0 then .error .valueError
      else .ok ⟨dividend, divisor⟩
    | _ => .error .valueError  -- a 1- or 2-element collection holding non-integers
  else .error .valueError

/-- Python `s.split('/', 1)`: split at the first slash only (on the
character list). -/
def splitOnceOnSlash (cs : List Char) : List (List Char) :=
  let pre := cs.takeWhile (fun c => ! (c = '/'))
  match cs.dropWhile (fun c => ! (c = '/')) with
  | [] => [pre]
  | _ :: rest => [pre, rest]

/-- `FrameRate.from_string`: split on the first `/`, parse the components
as Python integers (a parse failure is a `ValueError`, caught by the same
handlers as the `ValueError`s of `from_collection`). -/
def from_string (s : String) : Except PyErr FrameRate :=
  match (splitOnceOnSlash s.data).mapM pyIntOfChars with
  | some parts => from_collection (parts.map PyVal.int)
  | Option.none => .error .valueError

/-- `FrameRate.decode`: strings are parsed, integers become `(n, 1)`,
1- or 2-element lists of integers are accepted, anything else is a
`ValueError`.  (The Python branches for `float` and for passing a
`FrameRate` instance through concern values outside the `PyVal` model:
no modelled value is a float or a `FrameRate` instance.) -/
def decode (raw : PyVal) : Except PyErr FrameRate :=
  match raw with
  | .str s => from_string s
  | .int n => from_collection [PyVal.int n]
  | .list xs => from_collection xs
  | _ => .error .valueError

/-- `FrameRate.normalized`: divide both components by their GCD.  The
Python method asserts `dividend >= 0` and `divisor > 0` first; every
`FrameRate` produced by `decode` satisfies both (see `decode_wf`), so the
embedding is total.  For such values Python's floor division `//` agrees
with exact division. -/
def normalized (fr : FrameRate) : FrameRate :=
  let g : Int := Int.gcd fr.dividend fr.divisor
  ⟨fr.dividend / g, fr.divisor / g⟩

/-- The largest power of two not exceeding `n`, for `n ≥ 1` (structural
fuel recursion so that concrete values compute inside the kernel). -/
def floorPow2Aux : Nat → Nat → Nat
  | 0, _ => 1
  | fuel + 1, n => if n ≤ 1 then 1 else 2 * floorPow2Aux fuel (n / 2)

/-- `floorPow2 n = 2 ^ (floor (log2 n))` for `n ≥ 1`. -/
def floorPow2 (n : Nat) : Nat := floorPow2Aux n n

/-- `to_float() > bound`, embedded exactly for the positive integer
bounds below `2 ^ 52` that `MAX_SUPPORTED_FRAME_RATE` registers (the
table holds the single bound 60).  `to_float` is CPython's true division
`dividend / divisor` of arbitrary-precision non-negative integers: it
returns the IEEE-754 binary64 double nearest the exact quotient `q`
(ties to the even mantissa), and raises `OverflowError` when the rounded
quotient would reach `2 ^ 1024` — which happens exactly when
`q ≥ 2 ^ 1024 - 2 ^ 970`, since the largest finite double
`2 ^ 1024 - 2 ^ 971` has an odd (all-ones) mantissa, so the halfway
point above it rounds away from it.  Comparing a double against a Python
int is exact.  An integer bound `m` with `1 ≤ m < 2 ^ 52` is itself a
double whose unit in the last place is `ulp = 2 ^ (floor (log2 m) - 52)`
and whose mantissa (`m / ulp < 2 ^ 53`, an even integer since
`floor (log2 m) ≤ 51`) is even, so the halfway point `m + ulp / 2`
rounds down to `m`; rounding is monotone, hence for a non-overflowing
quotient `float(q) > m` iff `q > m + 2 ^ (floor (log2 m) - 53)`, i.e.
iff `2 ^ 53 * dividend > divisor * (2 ^ 53 * m + 2 ^ (floor (log2 m)))`,
with `floorPow2 m = 2 ^ (floor (log2 m))`.  For the registered bound 60
the threshold is `60 + 2 ^ (-48)`: a quotient of exactly `60 + 2 ^ (-48)`
rounds to `60.0` and is NOT above the bound. -/
def to_float_gt (fr : FrameRate) (bound : Int) : Except PyErr Bool :=
  if fr.divisor * ((2 ^ 1024 - 2 ^ 970 : Nat) : Int) ≤ fr.dividend then
    .error .overflowError
  else
    .ok (decide (fr.divisor * (((2 ^ 53 : Nat) : Int) * bound +
        (floorPow2 bound.toNat : Int)) <
      ((2 ^ 53 : Nat) : Int) * fr.dividend))

end FrameRate

/-! ## `utils.py` — `SparseRange` -/

/-- `SparseRange` from `utils.py`: a set of exact integer points plus a set
of intervals whose bounds may be open (`none`).  The constructor separates
points from tuples; the embedding stores them separately from the start. -/
structure SparseRange where
  points : List Int
  ranges : List (Option Int × Option Int)
  deriving Repr

/-- `SparseRange.contains`: membership in a point or in one of the
intervals.  A doubly-open interval is always satisfied; a half-open bound
is replaced by `min`/`max` with the queried value exactly as in the
source (the source's intermediate `assert finite_range[0] <= finite_range[1]`
can never fail after that clamping and is omitted). -/
def SparseRange.contains (sr : SparseRange) (value : Int) : Bool :=
  if sr.points.contains value then true
  else sr.ranges.any fun r =>
    match r with
    | (Option.none, Option.none) => true
    | (lo?, hi?) =>
      let lo := match lo? with
        | some l => l
        | Option.none => min value (hi?.getD value)
      let hi := match hi? with
        | some h => h
        | Option.none => max value (lo?.getD value)
      decide (lo ≤ value ∧ value ≤ hi)

/-! ## `codecs.py` — codec registries -/

/-- `DATA_STREAM_WHITELIST` from `codecs.py`. -/
def DATA_STREAM_WHITELIST : List String := ["bin_data"]

/-- The `VideoCodec` enumeration of `codecs.py`. -/
inductive VideoCodec where
  | AV1 | FLV1 | H_263 | H_264 | H_265 | HEVC | MJPEG
  | MPEG_1 | MPEG_2 | MPEG_4 | MSMPEG4V2 | THEORA
  | VP8 | VP9 | WMV1 | WMV2 | WMV3
  deriving DecidableEq, Repr, Fintype

namespace VideoCodec

/-- The string value of each `VideoCodec` member. -/
def value : VideoCodec → String
  | .AV1 => "av1"
  | .FLV1 => "flv1"
  | .H_263 => "h263"
  | .H_264 => "h264"
  | .H_265 => "h265"
  | .HEVC => "hevc"
  | .MJPEG => "mjpeg"
  | .MPEG_1 => "mpeg1video"
  | .MPEG_2 => "mpeg2video"
  | .MPEG_4 => "mpeg4"
  | .MSMPEG4V2 => "msmpeg4v2"
  | .THEORA => "theora"
  | .VP8 => "vp8"
  | .VP9 => "vp9"
  | .WMV1 => "wmv1"
  | .WMV2 => "wmv2"
  | .WMV3 => "wmv3"

/-- Enum construction from a value string (`_value2member_map_`). -/
def ofValue (s : String) : Option VideoCodec :=
  match s with
  | "av1" => some .AV1
  | "flv1" => some .FLV1
  | "h263" => some .H_263
  | "h264" => some .H_264
  | "h265" => some .H_265
  | "hevc" => some .HEVC
  | "mjpeg" => some .MJPEG
  | "mpeg1video" => some .MPEG_1
  | "mpeg2video" => some .MPEG_2
  | "mpeg4" => some .MPEG_4
  | "msmpeg4v2" => some .MSMPEG4V2
  | "theora" => some .THEORA
  | "vp8" => some .VP8
  | "vp9" => some .VP9
  | "wmv1" => some .WMV1
  | "wmv2" => some .WMV2
  | "wmv3" => some .WMV3
  | _ => Option.none

/-- `VideoCodec.from_name` / `VideoCodec(name)`: an unrecognized value
raises `UnsupportedVideoCodec` via `_missing_`. -/
def from_name (name : String) : Except PyErr VideoCodec :=
  match ofValue name with
  | some c => .ok c
  | Option.none => .error .unsupportedVideoCodec

end VideoCodec

/-- `_VIDEO_ENCODERS` from `codecs.py` (`none` embeds Python `None`). -/
def VIDEO_ENCODERS : List (String × Option String) :=
  [ ("av1", Option.none),
    ("flv1", some "flv"),
    ("h263", some "h263"),
    ("h264", some "libx264"),
    ("h265", some "libx265"),
    ("hevc", some "libx265"),
    ("mjpeg", some "mjpeg"),
    ("mpeg1video", some "mpeg1video"),
    ("mpeg2video", some "mpeg2video"),
    ("mpeg4", some "libxvid"),
    ("msmpeg4v2", some "msmpeg4v2"),
    ("theora", some "libtheora"),
    ("vp8", some "libvpx"),
    ("vp9", some "libvpx-vp9"),
    ("wmv1", some "wmv1"),
    ("wmv2", some "wmv2"),
    ("wmv3", Option.none) ]

/-- `_VIDEO_SUPPORTED_CONVERSIONS` from `codecs.py`, row by row. -/
def VIDEO_SUPPORTED_CONVERSIONS : List (String × List String) :=
  [ ("av1", []),
    ("flv1", ["flv1", "h264", "h265", "hevc", "mjpeg", "mpeg1video", "mpeg2video", "mpeg4", "vp8", "vp9", "wmv1", "wmv2"]),
    ("h263", ["flv1", "h264", "h265", "hevc", "mjpeg", "mpeg1video", "mpeg2video", "mpeg4", "vp8", "vp9", "wmv1", "wmv2"]),
    ("h264", ["flv1", "h264", "h265", "hevc", "mjpeg", "mpeg1video", "mpeg2video", "mpeg4", "vp8", "vp9", "wmv1", "wmv2"]),
    ("h265", ["flv1", "h264", "h265", "hevc", "mjpeg", "mpeg1video", "mpeg2video", "mpeg4", "vp8", "vp9", "wmv1", "wmv2"]),
    ("hevc", ["flv1", "h264", "h265", "hevc", "mjpeg", "mpeg1video", "mpeg2video", "mpeg4", "vp8", "vp9", "wmv1", "wmv2"]),
    ("mjpeg", ["flv1", "h264", "h265", "hevc", "mjpeg", "mpeg1video", "mpeg2video", "mpeg4", "vp8", "vp9", "wmv1", "wmv2"]),
    ("mpeg1video", ["flv1", "h264", "h265", "hevc", "mjpeg", "mpeg1video", "mpeg2video", "mpeg4", "vp8", "vp9", "wmv1", "wmv2"]),
    ("mpeg2video", ["flv1", "h264", "h265", "hevc", "mjpeg", "mpeg1video", "mpeg2video", "mpeg4", "vp8", "vp9", "wmv1", "wmv2"]),
    ("mpeg4", ["flv1", "h264", "h265", "hevc", "mjpeg", "mpeg1video", "mpeg2video", "mpeg4", "vp8", "vp9", "wmv1", "wmv2"]),
    ("msmpeg4v2", []),
    ("theora", ["flv1", "h264", "h265", "hevc", "mjpeg", "mpeg1video", "mpeg2video", "mpeg4", "vp8", "vp9", "wmv1", "wmv2"]),
    ("vp8", ["flv1", "h264", "h265", "hevc", "mjpeg", "mpeg1video", "mpeg2video", "mpeg4", "vp8", "vp9", "wmv1", "wmv2"]),
    ("vp9", ["flv1", "h264", "h265", "hevc", "mjpeg", "mpeg1video", "mpeg2video", "mpeg4", "vp8", "vp9", "wmv1", "wmv2"]),
    ("wmv1", ["flv1", "h264", "h265", "hevc", "mjpeg", "mpeg1video", "mpeg2video", "mpeg4", "vp8", "vp9", "wmv1", "wmv2"]),
    ("wmv2", ["flv1", "h264", "h265", "hevc", "mjpeg", "mpeg1video", "mpeg2video", "mpeg4", "vp8", "vp9", "wmv1", "wmv2"]),
    ("wmv3", ["flv1", "h264", "h265", "hevc", "mjpeg", "mpeg1video", "mpeg2video", "mpeg4", "vp8", "vp9", "wmv1", "wmv2"]) ]

/-- `VideoCodec.get_encoder`: table lookup defaulting to the codec's own
name ("if list doesn't contain encoder we assume we can pass codec name"). -/
def VideoCodec.get_encoder (c : VideoCodec) : Option String :=
  (VIDEO_ENCODERS.lookup c.value).getD (some c.value)

/-- `VideoCodec.get_supported_conversions`: table lookup defaulting to an
empty list. -/
def VideoCodec.get_supported_conversions (c : VideoCodec) : List String :=
  (VIDEO_SUPPORTED_CONVERSIONS.lookup c.value).getD []

/-- `VideoCodec.can_convert`. -/
def VideoCodec.can_convert (c : VideoCodec) (video_codec : String) : Bool :=
  c.get_supported_conversions.contains video_codec

/-- The `AudioCodec` enumeration of `codecs.py`. -/
inductive AudioCodec where
  | AAC | AC3 | AMR_NB | MP2 | MP3 | OPUS | PCM_U8 | WMAV2 | WMAPRO | VORBIS
  deriving DecidableEq, Repr, Fintype

namespace AudioCodec

/-- The string value of each `AudioCodec` member. -/
def value : AudioCodec → String
  | .AAC => "aac"
  | .AC3 => "ac3"
  | .AMR_NB => "amr_nb"
  | .MP2 => "mp2"
  | .MP3 => "mp3"
  | .OPUS => "opus"
  | .PCM_U8 => "pcm_u8"
  | .WMAV2 => "wmav2"
  | .WMAPRO => "wmapro"
  | .VORBIS => "vorbis"

/-- Enum construction from a value string. -/
def ofValue (s : String) : Option AudioCodec :=
  match s with
  | "aac" => some .AAC
  | "ac3" => some .AC3
  | "amr_nb" => some .AMR_NB
  | "mp2" => some .MP2
  | "mp3" => some .MP3
  | "opus" => some .OPUS
  | "pcm_u8" => some .PCM_U8
  | "wmav2" => some .WMAV2
  | "wmapro" => some .WMAPRO
  | "vorbis" => some .VORBIS
  | _ => Option.none

/-- `AudioCodec.from_name` / `AudioCodec(name)`: an unrecognized value
raises `UnsupportedAudioCodec` via `_missing_`. -/
def from_name (name : String) : Except PyErr AudioCodec :=
  match ofValue name with
  | some c => .ok c
  | Option.none => .error .unsupportedAudioCodec

end AudioCodec

/-- `_AUDIO_ENCODERS` from `codecs.py`. -/
def AUDIO_ENCODERS : List (String × Option String) :=
  [ ("aac", some "aac"),
    ("ac3", some "ac3"),
    ("amr_nb", some "libopencore_amrnb"),
    ("mp2", some "mp2"),
    ("mp3", some "libmp3lame"),
    ("opus", some "libopus"),
    ("pcm_u8", some "pcm_u8"),
    ("wmapro", Option.none),
    ("wmav2", some "wmav2"),
    ("vorbis", some "libvorbis") ]

/-- `_AUDIO_SUPPORTED_CONVERSIONS` from `codecs.py` (every row lists the
same nine codecs; `wmapro` is in no row, not even its own). -/
def AUDIO_SUPPORTED_CONVERSIONS : List (String × List String) :=
  [ ("aac", ["aac", "ac3", "amr_nb", "mp2", "mp3", "opus", "pcm_u8", "wmav2", "vorbis"]),
    ("ac3", ["aac", "ac3", "amr_nb", "mp2", "mp3", "opus", "pcm_u8", "wmav2", "vorbis"]),
    ("amr_nb", ["aac", "ac3", "amr_nb", "mp2", "mp3", "opus", "pcm_u8", "wmav2", "vorbis"]),
    ("mp2", ["aac", "ac3", "amr_nb", "mp2", "mp3", "opus", "pcm_u8", "wmav2", "vorbis"]),
    ("mp3", ["aac", "ac3", "amr_nb", "mp2", "mp3", "opus", "pcm_u8", "wmav2", "vorbis"]),
    ("opus", ["aac", "ac3", "amr_nb", "mp2", "mp3", "opus", "pcm_u8", "wmav2", "vorbis"]),
    ("pcm_u8", ["aac", "ac3", "amr_nb", "mp2", "mp3", "opus", "pcm_u8", "wmav2", "vorbis"]),
    ("wmapro", ["aac", "ac3", "amr_nb", "mp2", "mp3", "opus", "pcm_u8", "wmav2", "vorbis"]),
    ("wmav2", ["aac", "ac3", "amr_nb", "mp2", "mp3", "opus", "pcm_u8", "wmav2", "vorbis"]),
    ("vorbis", ["aac", "ac3", "amr_nb", "mp2", "mp3", "opus", "pcm_u8", "wmav2", "vorbis"]) ]

/-- `AudioCodec.get_encoder`. -/
def AudioCodec.get_encoder (c : AudioCodec) : Option String :=
  (AUDIO_ENCODERS.lookup c.value).getD (some c.value)

/-- `AudioCodec.get_supported_conversions`. -/
def AudioCodec.get_supported_conversions (c : AudioCodec) : List String :=
  (AUDIO_SUPPORTED_CONVERSIONS.lookup c.value).getD []

/-- `AudioCodec.can_convert`. -/
def AudioCodec.can_convert (c : AudioCodec) (audio_codec : String) : Bool :=
  c.get_supported_conversions.contains audio_codec

/-- `_SUPPORTED_SAMPLE_RATES` from `codecs.py`: the hardcoded fallback
table, keyed by **encoder** name. -/
def SUPPORTED_SAMPLE_RATES : List (String × SparseRange) :=
  [ ("aac", ⟨[96000, 88200, 64000, 48000, 44100, 32000, 24000, 22050, 16000, 12000, 11025, 8000, 7350], []⟩),
    ("mp3", ⟨[48000, 44100, 32000, 24000, 22050, 16000, 12000, 11025, 8000], []⟩),
    ("libmp3lame", ⟨[48000, 44100, 32000, 24000, 22050, 16000, 12000, 11025, 8000], []⟩),
    ("mp2", ⟨[48000, 44100, 32000, 24000, 22050, 16000], []⟩),
    ("opus", ⟨[48000], []⟩),
    ("libopus", ⟨[48000, 24000, 16000, 12000, 8000], []⟩),
    ("libopencore_amrnb", ⟨[8000], []⟩),
    ("ac3", ⟨[48000, 44100, 32000, 24000, 22050, 16000, 12000, 11025, 8000], []⟩),
    ("libvorbis", ⟨[], [(some 1000, some 200000)]⟩),
    ("wmav2", ⟨[], [(some 2, some 48000)]⟩),
    ("pcm_u8", ⟨[], [(some 1, Option.none)]⟩) ]

/-- The encoder info dictionary produced by `query_encoder_info` in
`commands.py`: it either lacks the `sample_rates` key entirely or maps it
to a list of integers. -/
structure EncoderInfo where
  sample_rates : Option (List Int)
  deriving DecidableEq, Repr

/-- The fallback half of `AudioCodec.is_supported_sample_rate`: consult
`_SUPPORTED_SAMPLE_RATES` by encoder name; an encoder absent from the
table supports nothing. -/
def sample_rate_fallback (encoder : String) (sample_rate : Int) : Bool :=
  match SUPPORTED_SAMPLE_RATES.lookup encoder with
  | some sr => sr.contains sample_rate
  | Option.none => false

/-- `AudioCodec.is_supported_sample_rate` from `codecs.py`: no encoder ⇒
false; else an encoder-info `sample_rates` list, when supplied, is
consulted by exact membership; otherwise the hardcoded fallback table. -/
def AudioCodec.is_supported_sample_rate (c : AudioCodec) (sample_rate : Int)
    (encoder_info : Option EncoderInfo) : Bool :=
  match c.get_encoder with
  | Option.none => false
  | some encoder =>
    match encoder_info with
    | some info =>
      match info.sample_rates with
      | some rates => rates.contains sample_rate
      | Option.none => sample_rate_fallback encoder sample_rate
    | Option.none => sample_rate_fallback encoder sample_rate

/-- The `SubtitleCodec` enumeration of `codecs.py`. -/
inductive SubtitleCodec where
  | ASS | MOV_TEXT | SUBRIP | WEBVTT
  deriving DecidableEq, Repr, Fintype

namespace SubtitleCodec

/-- The string value of each `SubtitleCodec` member. -/
def value : SubtitleCodec → String
  | .ASS => "ass"
  | .MOV_TEXT => "mov_text"
  | .SUBRIP => "subrip"
  | .WEBVTT => "webvtt"

/-- Enum construction from a value string. -/
def ofValue (s : String) : Option SubtitleCodec :=
  match s with
  | "ass" => some .ASS
  | "mov_text" => some .MOV_TEXT
  | "subrip" => some .SUBRIP
  | "webvtt" => some .WEBVTT
  | _ => Option.none

/-- `SubtitleCodec.from_name` / `SubtitleCodec(name)`. -/
def from_name (name : String) : Except PyErr SubtitleCodec :=
  match ofValue name with
  | some c => .ok c
  | Option.none => .error .unsupportedSubtitleCodec

end SubtitleCodec

/-- `_SUBTITLE_SUPPORTED_CONVERSIONS` from `codecs.py`. -/
def SUBTITLE_SUPPORTED_CONVERSIONS : List (String × List String) :=
  [ ("subrip", ["subrip", "ass", "mov_text", "webvtt"]),
    ("ass", ["subrip", "ass", "mov_text", "webvtt"]),
    ("mov_text", ["subrip", "ass", "mov_text", "webvtt"]),
    ("webvtt", ["subrip", "ass", "mov_text", "webvtt"]) ]

/-- `SubtitleCodec.get_supported_conversions`. -/
def SubtitleCodec.get_supported_conversions (c : SubtitleCodec) : List String :=
  (SUBTITLE_SUPPORTED_CONVERSIONS.lookup c.value).getD []

/-- `SubtitleCodec.can_convert`. -/
def SubtitleCodec.can_convert (c : SubtitleCodec) (subtitle_codec : String) : Bool :=
  c.get_supported_conversions.contains subtitle_codec

/-- `MAX_SUPPORTED_FRAME_RATE` from `codecs.py`. -/
def MAX_SUPPORTED_FRAME_RATE : List (String × Int) :=
  [("mpeg1video", 60)]

/-- `FRAME_RATE_SUBSTITUTIONS` from `codecs.py` (both sides of the one
rule are normalized, as the module-level assertion there checks). -/
def FRAME_RATE_SUBSTITUTIONS : List (String × List (FrameRate × FrameRate)) :=
  [("mpeg2video", [(⟨25, 2⟩, ⟨12, 1⟩)])]

/-- `codecs.get_audio_encoder`: constructs the codec (which raises
`UnsupportedAudioCodec` for unrecognized or non-string values) and
returns its encoder name. -/
def get_audio_encoder (target_codec : PyVal) : Except PyErr (Option String) :=
  match target_codec with
  | .str s => (AudioCodec.from_name s).map AudioCodec.get_encoder
  | _ => .error .unsupportedAudioCodec

/-- Python `str.lower()` (ASCII scope): map upper-case ASCII letters to
lower case. -/
def pyCharLower (c : Char) : Char :=
  if 'A' ≤ c ∧ c ≤ 'Z' then Char.ofNat (c.toNat + 32) else c

/-- Python `str.lower()` over a whole string. -/
def pyLower (s : String) : String := ⟨s.data.map pyCharLower⟩

/-! ## `formats.py` — the `Container` registry -/

/-- The `Container` enumeration of `formats.py`: fifteen muxer names plus
the two ffprobe-only demuxer identifiers. -/
inductive Container where
  | c_3G2 | c_3GP | c_ASF | c_AVI | c_F4V | c_FLV | c_IPOD
  | c_MATROSKA | c_MOV | c_MP4 | c_MPEG | c_MPEGTS | c_OGG
  | c_SVCD | c_WEBM
  | c_QUICK_TIME_DEMUXER | c_MATROSKA_WEBM_DEMUXER
  deriving DecidableEq, Repr, Fintype

namespace Container

/-- The string value of each `Container` member, in declaration order. -/
def value : Container → String
  | .c_3G2 => "3g2"
  | .c_3GP => "3gp"
  | .c_ASF => "asf"
  | .c_AVI => "avi"
  | .c_F4V => "f4v"
  | .c_FLV => "flv"
  | .c_IPOD => "ipod"
  | .c_MATROSKA => "matroska"
  | .c_MOV => "mov"
  | .c_MP4 => "mp4"
  | .c_MPEG => "mpeg"
  | .c_MPEGTS => "mpegts"
  | .c_OGG => "ogg"
  | .c_SVCD => "svcd"
  | .c_WEBM => "webm"
  | .c_QUICK_TIME_DEMUXER => "mov,mp4,m4a,3gp,3g2,mj2"
  | .c_MATROSKA_WEBM_DEMUXER => "matroska,webm"

/-- All members in declaration order (Python `list(Container)`). -/
def members : List Container :=
  [ .c_3G2, .c_3GP, .c_ASF, .c_AVI, .c_F4V, .c_FLV, .c_IPOD,
    .c_MATROSKA, .c_MOV, .c_MP4, .c_MPEG, .c_MPEGTS, .c_OGG,
    .c_SVCD, .c_WEBM, .c_QUICK_TIME_DEMUXER, .c_MATROSKA_WEBM_DEMUXER ]

/-- Enum construction from a value string (`_value2member_map_`). -/
def ofValue (s : String) : Option Container :=
  match s with
  | "3g2" => some .c_3G2
  | "3gp" => some .c_3GP
  | "asf" => some .c_ASF
  | "avi" => some .c_AVI
  | "f4v" => some .c_F4V
  | "flv" => some .c_FLV
  | "ipod" => some .c_IPOD
  | "matroska" => some .c_MATROSKA
  | "mov" => some .c_MOV
  | "mp4" => some .c_MP4
  | "mpeg" => some .c_MPEG
  | "mpegts" => some .c_MPEGTS
  | "ogg" => some .c_OGG
  | "svcd" => some .c_SVCD
  | "webm" => some .c_WEBM
  | "mov,mp4,m4a,3gp,3g2,mj2" => some .c_QUICK_TIME_DEMUXER
  | "matroska,webm" => some .c_MATROSKA_WEBM_DEMUXER
  | _ => Option.none

/-- `Container(value)`: an unrecognized value raises
`UnsupportedVideoFormat` via `_missing_`. -/
def construct (s : String) : Except PyErr Container :=
  match ofValue s with
  | some c => .ok c
  | Option.none => .error .unsupportedVideoFormat

/-- `Container.from_name`: note the `.lower()` applied to the argument
before enum construction (`Container(name.lower())`). -/
def from_name (name : String) : Except PyErr Container :=
  construct (pyLower name)

end Container

/-- `_EXCLUSIVE_DEMUXERS` from `formats.py`. -/
def EXCLUSIVE_DEMUXERS : List Container :=
  [Container.c_QUICK_TIME_DEMUXER, Container.c_MATROSKA_WEBM_DEMUXER]

/-- `_DEMUXER_MAP` from `formats.py`: which demuxer reads files produced
by which muxer. -/
def DEMUXER_MAP : List (Container × Container) :=
  [ (Container.c_3G2, Container.c_QUICK_TIME_DEMUXER),
    (Container.c_3GP, Container.c_QUICK_TIME_DEMUXER),
    (Container.c_F4V, Container.c_QUICK_TIME_DEMUXER),
    (Container.c_IPOD, Container.c_QUICK_TIME_DEMUXER),
    (Container.c_MATROSKA, Container.c_MATROSKA_WEBM_DEMUXER),
    (Container.c_MOV, Container.c_QUICK_TIME_DEMUXER),
    (Container.c_MP4, Container.c_QUICK_TIME_DEMUXER),
    (Container.c_SVCD, Container.c_MPEG),
    (Container.c_WEBM, Container.c_MATROSKA_WEBM_DEMUXER) ]

/-- `_SAFE_INTERMEDIATE_FORMATS` from `formats.py`. -/
def SAFE_INTERMEDIATE_FORMATS : List (Container × Container) :=
  [ (Container.c_MATROSKA_WEBM_DEMUXER, Container.c_MATROSKA),
    (Container.c_QUICK_TIME_DEMUXER, Container.c_MOV) ]

/-- `_CONTAINER_SUPPORTED_CODECS` from `formats.py`, flattened: for each
container value string, the `videocodecs`, `audiocodecs` and
`subtitlecodecs` lists (several containers share one Python dictionary;
the rows are written out here).  Note the duplicated `"mp3"` in the
matroska audio list, present in the source. -/
def CONTAINER_SUPPORTED_CODECS : List (String × (List String × List String × List String)) :=
  [ ("3g2", (["h263", "h264", "mpeg4"], ["aac", "amr_nb"], ["mov_text"])),
    ("3gp", (["h263", "h264", "mpeg4"], ["aac", "amr_nb"], ["mov_text"])),
    ("avi", (["h264", "mjpeg", "mpeg1video", "mpeg2video", "mpeg4"], ["mp3", "opus"], [])),
    ("asf", (["wmv1", "wmv2", "wmv3"], ["aac", "wmav2", "wmapro"], [])),
    ("flv", (["flv1"], ["mp3"], [])),
    ("ipod", (["h264", "mpeg4"], ["aac", "ac3", "mp3"], ["mov_text"])),
    ("matroska", (["flv1", "h263", "h264", "h265", "hevc", "mjpeg", "mpeg1video", "mpeg2video", "mpeg4", "msmpeg4v2", "theora", "vp8", "vp9", "wmv1", "wmv2"], ["mp3", "aac", "mp3", "vorbis"], ["ass", "subrip", "webvtt"])),
    ("mov", (["h264", "h265", "hevc", "mjpeg", "mpeg1video", "mpeg2video"], ["mp3", "aac", "pcm_u8"], ["mov_text"])),
    ("mp4", (["h264", "h265", "hevc", "mpeg4"], ["aac", "mp3"], ["mov_text"])),
    ("mpeg", (["h264", "mpeg1video", "mpeg2video", "mpeg4"], ["ac3", "mp2", "mp3"], [])),
    ("mpegts", (["h264", "mpeg1video", "mpeg2video", "mpeg4"], ["ac3", "mp2", "mp3"], [])),
    ("ogg", (["theora"], ["opus", "vorbis"], [])),
    ("svcd", (["h264", "mpeg1video", "mpeg2video", "mpeg4"], ["ac3", "mp2", "mp3"], [])),
    ("webm", (["av1", "vp8", "vp9"], ["opus", "vorbis", "vp8"], ["webvtt"])) ]

namespace Container

/-- `Container.get_demuxer`. -/
def get_demuxer (c : Container) : String :=
  match DEMUXER_MAP.lookup c with
  | some d => d.value
  | Option.none => c.value

/-- `Container.is_exclusive_demuxer`. -/
def is_exclusive_demuxer (c : Container) : Bool :=
  EXCLUSIVE_DEMUXERS.contains c

/-- `Container.get_matching_muxers`: the muxers whose demuxer-map entry
points at this container, plus the container itself unless it is an
exclusive demuxer.  (The Python function returns a set; the embedding
returns the corresponding list of muxers.) -/
def get_matching_muxers (c : Container) : List Container :=
  let muxers := (DEMUXER_MAP.filter (fun p => p.2 = c)).map Prod.fst
  if c.is_exclusive_demuxer then muxers else muxers ++ [c]

/-- `Container.get_intermediate_muxer`. -/
def get_intermediate_muxer (c : Container) : String :=
  match SAFE_INTERMEDIATE_FORMATS.lookup c with
  | some m => m.value
  | Option.none => c.value

/-- The `videocodecs` entry of the static per-container table. -/
def table_video_codecs (c : Container) : List String :=
  match CONTAINER_SUPPORTED_CODECS.lookup c.value with
  | some t => t.1
  | Option.none => []

/-- The `audiocodecs` entry of the static per-container table. -/
def table_audio_codecs (c : Container) : List String :=
  match CONTAINER_SUPPORTED_CODECS.lookup c.value with
  | some t => t.2.1
  | Option.none => []

/-- The `subtitlecodecs` entry of the static per-container table. -/
def table_subtitle_codecs (c : Container) : List String :=
  match CONTAINER_SUPPORTED_CODECS.lookup c.value with
  | some t => t.2.2
  | Option.none => []

/-- `_list_supported_video_codecs_for_exclusive_demuxer`: the union over
all matching muxers.  Python builds `list(set(...))` (deduplicated,
arbitrary order); the embedding deduplicates the concatenation, which has
the same elements. -/
def derived_video_codecs (c : Container) : List String :=
  ((c.get_matching_muxers).flatMap table_video_codecs).eraseDups

/-- `_list_supported_audio_codecs_for_exclusive_demuxer`. -/
def derived_audio_codecs (c : Container) : List String :=
  ((c.get_matching_muxers).flatMap table_audio_codecs).eraseDups

/-- `_list_supported_subtitle_codecs_for_exclusive_demuxer`. -/
def derived_subtitle_codecs (c : Container) : List String :=
  ((c.get_matching_muxers).flatMap table_subtitle_codecs).eraseDups

/-- `Container.get_supported_video_codecs`: derived for exclusive
demuxers, static table lookup (defaulting to empty) otherwise. -/
def get_supported_video_codecs (c : Container) : List String :=
  if c.is_exclusive_demuxer then derived_video_codecs c
  else table_video_codecs c

/-- `Container.get_supported_audio_codecs`. -/
def get_supported_audio_codecs (c : Container) : List String :=
  if c.is_exclusive_demuxer then derived_audio_codecs c
  else table_audio_codecs c

/-- `Container.get_supported_subtitle_codecs`. -/
def get_supported_subtitle_codecs (c : Container) : List String :=
  if c.is_exclusive_demuxer then derived_subtitle_codecs c
  else table_subtitle_codecs c

end Container

/-- `formats.list_supported_formats`: all enum values in declaration
order. -/
def list_supported_formats : List String :=
  Container.members.map Container.value

/-- `Container.is_supported` / `formats.is_supported`: exact (case
sensitive) membership in the list of supported format names. -/
def Container.is_supported (vformat : String) : Bool :=
  list_supported_formats.contains vformat

/-- `formats.list_supported_video_codecs`: empty for unrecognized format
strings. -/
def list_supported_video_codecs (vformat : String) : List String :=
  match Container.ofValue vformat with
  | some c => c.get_supported_video_codecs
  | Option.none => []

/-- `formats.is_supported_video_codec`. -/
def is_supported_video_codec (vformat : String) (codec : String) : Bool :=
  (list_supported_video_codecs vformat).contains codec

/-- `formats.list_supported_audio_codecs`. -/
def list_supported_audio_codecs (vformat : String) : List String :=
  match Container.ofValue vformat with
  | some c => c.get_supported_audio_codecs
  | Option.none => []

/-- `formats.is_supported_audio_codec`. -/
def is_supported_audio_codec (vformat : String) (codec : String) : Bool :=
  (list_supported_audio_codecs vformat).contains codec

/-- `formats.list_supported_subtitle_codecs`. -/
def list_supported_subtitle_codecs (vformat : String) : List String :=
  match Container.ofValue vformat with
  | some c => c.get_supported_subtitle_codecs
  | Option.none => []

/-- `formats.is_supported_subtitle_codec`. -/
def is_supported_subtitle_codec (vformat : String) (codec : String) : Bool :=
  (list_supported_subtitle_codecs vformat).contains codec

/-- `_frame_rates` from `formats.py`: the static set of supported frame
rates (membership uses exact named-tuple equality). -/
def supported_frame_rates : List FrameRate :=
  [ ⟨24000, 1001⟩, ⟨12, 1⟩, ⟨15, 1⟩, ⟨24, 1⟩, ⟨25, 1⟩,
    ⟨30000, 1001⟩, ⟨30, 1⟩, ⟨50, 1⟩, ⟨60, 1⟩, ⟨240, 1⟩, ⟨1000, 1⟩ ]

/-- `_aspect_ratio_overrides` from `formats.py`: hard-coded overrides for
historically nonstandard-but-common resolutions. -/
def aspect_overrides : List (String × List PyVal) :=
  [ ("16:9", [ PyVal.list [PyVal.int 426, PyVal.int 240],
               PyVal.list [PyVal.int 854, PyVal.int 480],
               PyVal.list [PyVal.int 1366, PyVal.int 768],
               PyVal.list [PyVal.int 1360, PyVal.int 768] ]),
    ("21:9", [ PyVal.list [PyVal.int 2560, PyVal.int 1080],
               PyVal.list [PyVal.int 3440, PyVal.int 1440] ]) ]

/-- `calculate_aspect_ratio` from `formats.py`: asserts the resolution is
a 2-element list, divides by the GCD and renders as `W:H`.  A non-list or
a list of non-integers raises `TypeError` (from `len`/`gcd`). -/
def calculate_aspect (resolution : PyVal) : Except PyErr String :=
  match resolution with
  | .list xs =>
    if xs.length = 2 then
      match xs with
      | [PyVal.int w, PyVal.int h] =>
        let g : Int := Int.gcd w h
        .ok (toString (w / g) ++ ":" ++ toString (h / g))
      | _ => .error .typeError
    else .error .assertionError
  | _ => .error .typeError

/-- `get_effective_aspect_ratio` from `formats.py`: overrides first, then
the computed aspect. -/
def get_effective_aspect (resolution : PyVal) : Except PyErr String :=
  match aspect_overrides.find? (fun p => p.2.contains resolution) with
  | some p => .ok p.1
  | Option.none => calculate_aspect resolution

/-! ## `meta.py` — metadata accessors -/

/-- Membership of a value in a Python list of strings (`x in [...]`). -/
def pyMemStrList (x : PyVal) (xs : List String) : Bool :=
  xs.any (fun s => x.pyEq (.str s))

/-- Loop body of `meta.get_resolution`: find the first stream whose
`codec_type` is `"video"` and return `[width, height]`; all fields are
accessed by direct indexing (`stream["..."]`), so missing fields raise
`KeyError`. -/
def get_resolution_loop : List PyVal → Except PyErr PyVal
  | [] => .ok (.list [.int 0, .int 0])
  | s :: rest => do
    let ct ← s.item "codec_type"
    if ct.pyEq (.str "video") then do
      let w ← s.item "width"
      let h ← s.item "height"
      pure (.list [w, h])
    else
      get_resolution_loop rest

/-- `meta.get_resolution`: `metadata["streams"]` by direct indexing
(`KeyError` when absent), then the first-video-stream loop. -/
def get_resolution (metadata : PyVal) : Except PyErr PyVal := do
  let streams ← metadata.item "streams"
  let xs ← streams.iter
  get_resolution_loop xs

/-- First-match loop shared by `get_frame_rate`, `get_video_codec`,
`get_audio_codec` and `get_audio_stream`: return `stream[attr]` of the
first stream whose `codec_type` equals `ct`, or the given default. -/
def first_stream_attr_loop (ct : String) (attr : String) (dflt : PyVal) :
    List PyVal → Except PyErr PyVal
  | [] => .ok dflt
  | s :: rest => do
    let t ← s.item "codec_type"
    if t.pyEq (.str ct) then s.item attr
    else first_stream_attr_loop ct attr dflt rest

/-- `meta.get_frame_rate`: `r_frame_rate` of the first video stream,
`None` when there is none; direct indexing throughout. -/
def get_frame_rate (metadata : PyVal) : Except PyErr PyVal := do
  let streams ← metadata.item "streams"
  let xs ← streams.iter
  first_stream_attr_loop "video" "r_frame_rate" PyVal.none xs

/-- `meta.get_video_codec`: `codec_name` of the first video stream, `""`
when there is none. -/
def get_video_codec (metadata : PyVal) : Except PyErr PyVal := do
  let streams ← metadata.item "streams"
  let xs ← streams.iter
  first_stream_attr_loop "video" "codec_name" (PyVal.str "") xs

/-- `meta.get_audio_codec`: `codec_name` of the first audio stream, `""`
when there is none. -/
def get_audio_codec (metadata : PyVal) : Except PyErr PyVal := do
  let streams ← metadata.item "streams"
  let xs ← streams.iter
  first_stream_attr_loop "audio" "codec_name" (PyVal.str "") xs

/-- Loop of `meta.get_audio_stream`: the first audio stream itself. -/
def get_audio_stream_loop : List PyVal → Except PyErr PyVal
  | [] => .ok PyVal.none
  | s :: rest => do
    let t ← s.item "codec_type"
    if t.pyEq (.str "audio") then pure s
    else get_audio_stream_loop rest

/-- `meta.get_audio_stream`. -/
def get_audio_stream (metadata : PyVal) : Except PyErr PyVal := do
  let streams ← metadata.item "streams"
  let xs ← streams.iter
  get_audio_stream_loop xs

/-- `meta.get_format`: `metadata["format"]["format_name"]`, direct
indexing. -/
def get_format (metadata : PyVal) : Except PyErr PyVal := do
  let f ← metadata.item "format"
  f.item "format_name"

/-- Comprehension core of `meta.get_attribute_from_all_streams`: for each
stream (which must support `.get`, i.e. be a dictionary), keep it when
`codec_type` is unfiltered or matches, and collect `stream.get(attr)`
(defaulting to `None`). -/
def attr_from_streams (attr : String) (codec_type : Option String) :
    List PyVal → Except PyErr (List PyVal)
  | [] => .ok []
  | s :: rest => do
    let keep ←
      match codec_type with
      | Option.none => pure true
      | some t => do
        let ct ← s.get "codec_type" PyVal.none
        pure (ct.pyEq (.str t))
    if keep then do
      let a ← s.get attr PyVal.none
      let tail ← attr_from_streams attr codec_type rest
      pure (a :: tail)
    else
      attr_from_streams attr codec_type rest

/-- `meta.get_attribute_from_all_streams`: `metadata.get('streams', [])`
(no exception for a missing key), then the comprehension. -/
def get_attribute_from_all_streams (metadata : PyVal) (attr : String)
    (codec_type : Option String) : Except PyErr (List PyVal) := do
  let ss ← metadata.get "streams" (.list [])
  let xs ← ss.iter
  attr_from_streams attr codec_type xs

/-- Comprehension core of `meta.get_resolutions`. -/
def resolutions_from_streams : List PyVal → Except PyErr (List PyVal)
  | [] => .ok []
  | s :: rest => do
    let ct ← s.get "codec_type" PyVal.none
    if ct.pyEq (.str "video") then do
      let w ← s.get "width" PyVal.none
      let h ← s.get "height" PyVal.none
      let tail ← resolutions_from_streams rest
      pure (.list [w, h] :: tail)
    else
      resolutions_from_streams rest

/-- `meta.get_resolutions`: `[ [w, h] for video streams ]` with `.get`
accessors throughout. -/
def get_resolutions (metadata : PyVal) : Except PyErr (List PyVal) := do
  let ss ← metadata.get "streams" (.list [])
  let xs ← ss.iter
  resolutions_from_streams xs

/-- `meta.get_frame_rates`. -/
def get_frame_rates (metadata : PyVal) : Except PyErr (List PyVal) :=
  get_attribute_from_all_streams metadata "r_frame_rate" (some "video")

/-- `meta._try_int`: opportunistically convert numeric strings to
integers, leaving every other value as-is. -/
def try_int (v : PyVal) : PyVal :=
  match v with
  | .str s =>
    match pyIntOfString s with
    | some n => .int n
    | Option.none => v
  | _ => v

/-- `meta.get_sample_rates`: `sample_rate` of the audio streams, with
`_try_int` applied to each value. -/
def get_sample_rates (metadata : PyVal) : Except PyErr (List PyVal) := do
  let xs ← get_attribute_from_all_streams metadata "sample_rate" (some "audio")
  pure (xs.map try_int)

/-- `meta.get_codecs`. -/
def get_codecs (metadata : PyVal) (codec_type : Option String) :
    Except PyErr (List PyVal) :=
  get_attribute_from_all_streams metadata "codec_name" codec_type

/-- Comprehension core of `meta.get_streams`.  The `codec_type is None`
test short-circuits before `stream.get`, as in the source. -/
def streams_filter (codec_type : Option String) :
    List PyVal → Except PyErr (List PyVal)
  | [] => .ok []
  | s :: rest => do
    let keep ←
      match codec_type with
      | Option.none => pure true
      | some t => do
        let ct ← s.get "codec_type" PyVal.none
        pure (ct.pyEq (.str t))
    let tail ← streams_filter codec_type rest
    pure (if keep then s :: tail else tail)

/-- `meta.get_streams`. -/
def get_streams (metadata : PyVal) (codec_type : Option String) :
    Except PyErr (List PyVal) := do
  let ss ← metadata.get "streams" (.list [])
  let xs ← ss.iter
  streams_filter codec_type xs

/-- `meta.find_stream_indexes`. -/
def find_stream_indexes (metadata : PyVal) (codec_type : Option String) :
    Except PyErr (List PyVal) :=
  get_attribute_from_all_streams metadata "index" codec_type

/-- `meta.count_streams`: the length of `find_stream_indexes`. -/
def count_streams (metadata : PyVal) (codec_type : Option String) :
    Except PyErr Nat := do
  let xs ← find_stream_indexes metadata codec_type
  pure xs.length

/-- The parameter list of `meta.create_params` as defined in `meta.py`:
`container, resolution, vcodec, acodec, frame_rate, video_bitrate,
audio_bitrate, scaling_algorithm`.  (There is **no** `sample_rates`
parameter.)  CPython checks keyword arguments of a call against this
list and raises `TypeError` for a keyword that is not in it. -/
def create_params_parameters : List String :=
  [ "container", "resolution", "vcodec", "acodec", "frame_rate",
    "video_bitrate", "audio_bitrate", "scaling_algorithm" ]

/-- `meta.create_params` from `meta.py`: builds the parameter dictionary.
Note that the top-level key holding the container name is `"container"`
(not `"format"`), and that the optional fields are guarded by Python
truthiness. -/
def create_params (container resolution vcodec acodec frame_rate
    video_bitrate audio_bitrate scaling_algorithm : PyVal) : PyVal :=
  let videoEntries :=
    [("codec", vcodec)] ++
    (if video_bitrate.truthy then [("bitrate", video_bitrate)] else [])
  let audioEntries :=
    (if acodec.truthy then [("codec", acodec)] else []) ++
    (if audio_bitrate.truthy then [("bitrate", audio_bitrate)] else [])
  .dict (
    [ ("container", container),
      ("video", .dict videoEntries),
      ("resolution", resolution) ] ++
    (if scaling_algorithm.truthy then [("scaling_alg", scaling_algorithm)] else []) ++
    (if frame_rate.truthy then [("frame_rate", frame_rate)] else []) ++
    (if acodec.truthy || audio_bitrate.truthy then [("audio", .dict audioEntries)] else []))

/-! ## `commands.py` — pure command builders and index arithmetic -/

/-- `formats.is_supported` applied to a dynamically-typed value (as in
`SubtitleCodec.select_conversion_for_container`): only a recognized
format *string* is supported. -/
def is_supported_py (v : PyVal) : Bool :=
  match v with
  | .str s => Container.is_supported s
  | _ => false

/-- `sorted(xs)[0]` for a nonempty set of strings: the lexicographically
smallest element. -/
def min_string : List String → Option String
  | [] => Option.none
  | s :: rest => some (rest.foldl (fun a b => if b < a then b else a) s)

/-- `SubtitleCodec.select_conversion_for_container` from `codecs.py`:
`None` for an unrecognized container, otherwise the lexicographically
smallest codec in the intersection of this codec's conversions with the
container's supported subtitle codecs (or `None` when empty). -/
def SubtitleCodec.select_conversion_for_container (c : SubtitleCodec)
    (target_container : PyVal) : Option String :=
  if ¬ is_supported_py target_container then Option.none
  else
    match target_container with
    | .str s =>
      match Container.ofValue s with
      | some cont =>
        min_string (c.get_supported_conversions.filter
          (fun x => cont.get_supported_subtitle_codecs.contains x))
      | Option.none => Option.none
    | _ => Option.none

/-- Comprehension core of `commands.find_unsupported_data_streams`:
indexes of streams whose `codec_type` is `data` and whose `codec_name`
is outside `DATA_STREAM_WHITELIST`. -/
def unsupported_data_loop : List PyVal → Except PyErr (List PyVal)
  | [] => .ok []
  | s :: rest => do
    let ct ← s.get "codec_type" PyVal.none
    let bad ←
      if ct.pyEq (.str "data") then do
        let cn ← s.get "codec_name" PyVal.none
        pure (! pyMemStrList cn DATA_STREAM_WHITELIST)
      else pure false
    if bad then do
      let i ← s.get "index" PyVal.none
      let tail ← unsupported_data_loop rest
      pure (i :: tail)
    else
      unsupported_data_loop rest

/-- `commands.find_unsupported_data_streams`. -/
def find_unsupported_data_streams (metadata : PyVal) : Except PyErr (List PyVal) := do
  let ss ← metadata.get "streams" (.list [])
  let xs ← ss.iter
  unsupported_data_loop xs

/-- Whether a `codec_name` value is a key of
`SubtitleCodec._value2member_map_`. -/
def is_known_subtitle_codec (v : PyVal) : Bool :=
  match v with
  | .str s => (SubtitleCodec.ofValue s).isSome
  | _ => false

/-- Comprehension core of `commands.find_unsupported_subtitle_streams`:
subtitle streams whose codec is unrecognized or has no viable conversion
for the target container. -/
def unsupported_subtitle_loop (target_container : PyVal) :
    List PyVal → Except PyErr (List PyVal)
  | [] => .ok []
  | s :: rest => do
    let ct ← s.get "codec_type" PyVal.none
    let bad ←
      if ct.pyEq (.str "subtitle") then do
        let cn ← s.get "codec_name" PyVal.none
        match cn with
        | .str name =>
          match SubtitleCodec.ofValue name with
          | some sc =>
            pure ((sc.select_conversion_for_container target_container).isNone)
          | Option.none => pure true
        | _ => pure true
      else pure false
    if bad then do
      let i ← s.get "index" PyVal.none
      let tail ← unsupported_subtitle_loop target_container rest
      pure (i :: tail)
    else
      unsupported_subtitle_loop target_container rest

/-- `commands.find_unsupported_subtitle_streams`: with no target
container every subtitle stream counts as supported. -/
def find_unsupported_subtitle_streams (metadata : PyVal)
    (target_container : PyVal) : Except PyErr (List PyVal) :=
  match target_container with
  | .none => .ok []
  | _ => do
    let ss ← metadata.get "streams" (.list [])
    let xs ← ss.iter
    unsupported_subtitle_loop target_container xs

/-- Comprehension core of `commands.select_subtitle_conversions`: map
each recognizable subtitle stream's index to its selected conversion,
then drop the `None` conversions. -/
def subtitle_conversions_loop (target_container : PyVal) :
    List PyVal → Except PyErr (List (PyVal × Option String))
  | [] => .ok []
  | s :: rest => do
    let ct ← s.get "codec_type" PyVal.none
    let keep ←
      if ct.pyEq (.str "subtitle") then do
        let cn ← s.get "codec_name" PyVal.none
        pure (is_known_subtitle_codec cn)
      else pure false
    if keep then do
      let i ← s.get "index" PyVal.none
      let cn ← s.get "codec_name" PyVal.none
      let conv :=
        match cn with
        | .str name =>
          match SubtitleCodec.ofValue name with
          | some sc => sc.select_conversion_for_container target_container
          | Option.none => Option.none
        | _ => Option.none
      let tail ← subtitle_conversions_loop target_container rest
      pure ((i, conv) :: tail)
    else
      subtitle_conversions_loop target_container rest

/-- `commands.select_subtitle_conversions`: empty with no target
container; otherwise the index-to-conversion dictionary with `None`
values filtered out. -/
def select_subtitle_conversions (metadata : PyVal) (target_container : PyVal) :
    Except PyErr (List (PyVal × String)) :=
  match target_container with
  | .none => .ok []
  | _ => do
    let ss ← metadata.get "streams" (.list [])
    let xs ← ss.iter
    let pairs ← subtitle_conversions_loop target_container xs
    pure (pairs.filterMap (fun p => (p.2).map (fun c => (p.1, c))))

/-- Python `sorted` on a list of integers (`insertionSort` produces the
same, unique, ascending result). -/
def pySorted (xs : List Int) : List Int :=
  xs.insertionSort (· ≤ ·)

/-- The removal histogram of `commands.adjust_stream_indexes_for_removals`:
walking the sorted removed indexes and the sorted retained indexes in
lockstep, each removed index falls into the bucket of the first retained
index that is `>=` it; removed indexes beyond every retained index are
dropped.  Functionally: the bucket of the first key takes the removed
indexes `<= key`, the rest recurse. -/
def removal_histogram : List Int → List Int → List (Int × Nat)
  | [], _ => []
  | k :: ks, rs =>
    (k, (rs.takeWhile (fun r => decide (r ≤ k))).length) ::
      removal_histogram ks (rs.dropWhile (fun r => decide (r ≤ k)))

/-- The final loop of `adjust_stream_indexes_for_removals`: walk the
retained map in its own (insertion) order, accumulate the histogram
buckets into a running total, assert the total never exceeds the index
and that the adjusted index is fresh, and emit `(index - total, value)`. -/
def reindex_loop {α : Type} (hist : List (Int × Nat)) :
    List (Int × α) → Nat → List (Int × α) → Except PyErr (List (Int × α))
  | [], _, acc => .ok acc
  | (i, v) :: rest, rt, acc =>
    match hist.lookup i with
    | Option.none => .error .keyError
    | some b =>
      let rt2 := rt + b
      if (rt2 : Int) ≤ i then
        if acc.any (fun q => q.1 = i - (rt2 : Int)) then .error .assertionError
        else reindex_loop hist rest rt2 (acc ++ [(i - (rt2 : Int), v)])
      else .error .assertionError

/-- `commands.adjust_stream_indexes_for_removals`: asserts disjointness
and non-negativity, returns `{}` for an empty map, and otherwise runs the
histogram/prefix-sum renumbering. -/
def adjust_stream_indexes_for_removals {α : Type} (indexed_map : List (Int × α))
    (removed_indexes : List Int) : Except PyErr (List (Int × α)) :=
  if (indexed_map.map Prod.fst).any (fun i => removed_indexes.contains i) then
    .error .assertionError
  else if ¬ ((indexed_map.map Prod.fst ++ removed_indexes).all (fun i => decide (0 ≤ i))) then
    .error .assertionError
  else if indexed_map.isEmpty then .ok []
  else
    reindex_loop
      (removal_histogram (pySorted (indexed_map.map Prod.fst)) (pySorted removed_indexes))
      indexed_map 0 []

/-- `commands.shift_stream_indexes`: uniform add, asserting no adjusted
index goes negative. -/
def shift_stream_indexes {α : Type} (indexed_map : List (Int × α)) (shift : Int) :
    Except PyErr (List (Int × α)) :=
  if indexed_map.all (fun p => decide (0 ≤ p.1 + shift)) then
    .ok (indexed_map.map (fun p => (p.1 + shift, p.2)))
  else .error .assertionError

/-- Rendering of a value inside an f-string (`f"-0:{index}"`); only
integers and strings occur at the rendered positions in the verified
paths. -/
def pyValFmt : PyVal → String
  | .int n => toString n
  | .str s => s
  | .none => "None"
  | .list _ => "[...]"
  | .dict _ => "{...}"

/-- Conversion of dynamically-typed stream indexes to integers on entry
to the index arithmetic: `adjust_stream_indexes_for_removals` immediately
compares them with integers (`index >= 0`, `sorted`), which raises
`TypeError` for a non-integer. -/
def pyIndexInt (v : PyVal) : Except PyErr Int :=
  match v with
  | .int n => .ok n
  | _ => .error .typeError

/-- `VALID_STREAM_TYPES` from `replace_streams_command`. -/
def VALID_STREAM_TYPES : List (String × String) :=
  [("v", "video"), ("V", "video"), ("a", "audio")]

/-- `commands.replace_streams_command`.

The Python function probes both files with `get_metadata_json` (an
external `ffprobe` invocation); the embedding takes the two probed
metadata values as parameters instead.  The produced value is the exact
argument vector.  (In the audio branch an encoder of `None` would make
Python place `None` in the argv; the embedding reports it as the
`TypeError` the subsequent subprocess call would raise, a case no theorem
below exercises.) -/
def replace_streams_command (input_file replacement_source output_file : String)
    (stream_type : String) (targs : PyVal) (container : Option String)
    (strip_unsupported_data_streams strip_unsupported_subtitle_streams : Bool)
    (input_metadata replacement_metadata : PyVal) :
    Except PyErr (List String) := do
  match VALID_STREAM_TYPES.lookup stream_type with
  | Option.none => throw .invalidArgument
  | some type_name => do
    let has_video ← targs.hasKey "video"
    if has_video then throw .invalidArgument
    let container_py : PyVal := (container.elim PyVal.none PyVal.str)
    let data_streams_to_strip ←
      if strip_unsupported_data_streams then
        find_unsupported_data_streams input_metadata
      else pure []
    let data_map_options :=
      data_streams_to_strip.flatMap (fun i => ["-map", "-0:" ++ pyValFmt i])
    let subtitle_streams_to_strip ←
      if strip_unsupported_subtitle_streams then
        find_unsupported_subtitle_streams input_metadata container_py
      else pure []
    let subtitle_map_options :=
      subtitle_streams_to_strip.flatMap (fun i => ["-map", "-0:" ++ pyValFmt i])
    let conversions ← select_subtitle_conversions input_metadata container_py
    let type_indexes ← find_stream_indexes input_metadata (some type_name)
    let conversions_int ← conversions.mapM
      (fun p => do pure ((← pyIndexInt p.1), p.2))
    let removed_int ←
      (data_streams_to_strip ++ subtitle_streams_to_strip ++ type_indexes).mapM pyIndexInt
    let adjusted ← adjust_stream_indexes_for_removals conversions_int removed_int
    let replacement_count ← count_streams replacement_metadata (some type_name)
    let subtitle_codec_map ← shift_stream_indexes adjusted (replacement_count : Int)
    let subtitle_codec_options :=
      subtitle_codec_map.flatMap (fun p => ["-codec:" ++ toString p.1, p.2])
    let audio ← targs.get "audio" (.dict [])
    let has_acodec ← audio.hasKey "codec"
    let audio_codec_options ←
      if has_acodec then do
        let enc ← get_audio_encoder (← audio.item "codec")
        match enc with
        | some e => pure ["-c:a", e]
        | Option.none => throw .typeError
      else pure []
    let has_abitrate ← audio.hasKey "bitrate"
    let audio_bitrate_options ←
      if has_abitrate then do
        let b ← audio.item "bitrate"
        pure ["-b:a", pyValFmt b]
      else pure []
    pure (
      [ "ffmpeg", "-nostdin",
        "-i", input_file,
        "-i", replacement_source,
        "-map", "1:" ++ stream_type,
        "-map", "0",
        "-map", "-0:" ++ stream_type ] ++
      data_map_options ++
      subtitle_map_options ++
      subtitle_codec_options ++
      [ "-copy_unknown", "-c:v", "copy", "-c:d", "copy" ] ++
      (container.elim [] (fun c => ["-f", c])) ++
      audio_codec_options ++
      audio_bitrate_options ++
      [ output_file ])

/-! ## `validation.py` — the validation pipeline -/

/-- `formats.is_supported_video_codec` on dynamically-typed arguments:
only string/string pairs can be supported. -/
def is_supported_video_codec_py (vformat codec : PyVal) : Bool :=
  match vformat, codec with
  | .str f, .str c => is_supported_video_codec f c
  | _, _ => false

/-- `formats.is_supported_audio_codec` on dynamically-typed arguments. -/
def is_supported_audio_codec_py (vformat codec : PyVal) : Bool :=
  match vformat, codec with
  | .str f, .str c => is_supported_audio_codec f c
  | _, _ => false

/-- `validation.validate_format`: the format name must be a supported
format string. -/
def validate_format (video_format : PyVal) : Except PyErr Bool :=
  match video_format with
  | .str s =>
    if Container.is_supported s then .ok true
    else .error .unsupportedVideoFormat
  | _ => .error .unsupportedVideoFormat

/-- `validation.validate_target_format`: additionally rejects exclusive
demuxers. -/
def validate_target_format (video_format : PyVal) : Except PyErr Bool := do
  let _ ← validate_format video_format
  match video_format with
  | .str s => do
    let c ← Container.construct s
    if c.is_exclusive_demuxer then throw .unsupportedTargetVideoFormat
    else pure true
  | _ => throw .unsupportedVideoFormat

/-- `validation.validate_video_codec`. -/
def validate_video_codec (video_format video_codec : PyVal) : Except PyErr Bool :=
  if is_supported_video_codec_py video_format video_codec then .ok true
  else .error .unsupportedVideoCodec

/-- `validation.validate_audio_codec`. -/
def validate_audio_codec (video_format audio_codec : PyVal) : Except PyErr Bool :=
  if is_supported_audio_codec_py video_format audio_codec then .ok true
  else .error .unsupportedAudioCodec

/-- `validation.validate_video_codec_conversion`: constructs the source
codec (raising `UnsupportedVideoCodec` for unrecognized values) and
requires the destination in its conversion list. -/
def validate_video_codec_conversion (src_codec dst_codec : PyVal) :
    Except PyErr Bool := do
  let codec ←
    match src_codec with
    | .str s => VideoCodec.from_name s
    | _ => throw .unsupportedVideoCodec
  if pyMemStrList dst_codec codec.get_supported_conversions then pure true
  else throw .unsupportedVideoCodecConversion

/-- `validation.validate_audio_codec_conversion`: conversion-table check
plus the multi-channel rule (more than two channels only allowed for
same-codec passthrough). -/
def validate_audio_codec_conversion (src_codec dst_codec audio_stream : PyVal) :
    Except PyErr Bool := do
  let codec ←
    match src_codec with
    | .str s => AudioCodec.from_name s
    | _ => throw .unsupportedAudioCodec
  if pyMemStrList dst_codec codec.get_supported_conversions then
    if ¬ (src_codec.pyEq dst_codec) then do
      let channels ← audio_stream.item "channels"
      match channels with
      | .int n =>
        if n > 2 then throw .unsupportedAudioChannelLayout else pure true
      | _ => throw .typeError
    else pure true
  else throw .unsupportedAudioCodecConversion

/-- `validation.validate_resolution`: the effective aspect of source and
target must coincide exactly. -/
def validate_resolution (src_resolution target_resolution : PyVal) :
    Except PyErr Bool := do
  let a ← get_effective_aspect src_resolution
  let b ← get_effective_aspect target_resolution
  if a = b then pure true else throw .invalidResolution

/-- `validation._guess_target_frame_rate_for_special_cases`: cap the
normalized source rate at the codec's registered maximum when the
double-precision `to_float()` exceeds it (the comparison can raise
`OverflowError`, see `to_float_gt`); otherwise apply a registered
substitution for the exact normalized rate; otherwise `None`. -/
def guess_target_frame_rate_for_special_cases (src_frame_rate : FrameRate)
    (dst_video_codec : PyVal) : Except PyErr (Option FrameRate) := do
  let normalized_src_rate := src_frame_rate.normalized
  let capped : Option FrameRate ←
    match dst_video_codec with
    | .str c =>
      match MAX_SUPPORTED_FRAME_RATE.lookup c with
      | some max_supported_fps => do
        let gt ← normalized_src_rate.to_float_gt max_supported_fps
        pure (if gt then some (⟨max_supported_fps, 1⟩ : FrameRate)
          else Option.none)
      | Option.none => pure Option.none
    | _ => pure Option.none
  match capped with
  | some t => pure (some t)
  | Option.none =>
    pure (match dst_video_codec with
      | .str c =>
        match FRAME_RATE_SUBSTITUTIONS.lookup c with
        | some rules => rules.lookup normalized_src_rate
        | Option.none => Option.none
      | _ => Option.none)

/-- `validation._guess_target_frame_rate`: the special case when there is
one, the source rate itself otherwise (`Option.getD` embeds the
conditional expression `t if t is not None else src_frame_rate`). -/
def guess_target_frame_rate (src_frame_rate : FrameRate) (dst_params : PyVal) :
    Except PyErr FrameRate := do
  let video ← dst_params.item "video"
  let codec ← video.item "codec"
  let target_frame_rate ←
    guess_target_frame_rate_for_special_cases src_frame_rate codec
  pure (target_frame_rate.getD src_frame_rate)

/-- `validation.validate_frame_rate`: an explicit destination rate is
decoded and used as-is; otherwise the source rate is decoded and
adjusted via `guess_target_frame_rate`; the resulting rate, normalized,
must be in the supported set. -/
def validate_frame_rate (dst_params : PyVal) (src_frame_rate : PyVal) :
    Except PyErr Bool := do
  let has_rate ← dst_params.hasKey "frame_rate"
  let target_frame_rate ←
    if has_rate then do
      let raw ← dst_params.item "frame_rate"
      match FrameRate.decode raw with
      | .ok t => pure t
      | .error _ => throw .invalidFrameRate
    else
      match src_frame_rate with
      | .none => throw .invalidFrameRate
      | s =>
        match FrameRate.decode s with
        | .ok d => guess_target_frame_rate d dst_params
        | .error _ => throw .invalidFrameRate
  if supported_frame_rates.contains target_frame_rate.normalized then pure true
  else throw .invalidFrameRate

/-- `validation.validate_audio_sample_rate`: with no source rates the
check is skipped; otherwise every source rate must be in the encoder
info's `sample_rates` list (obtained from the external
`query_encoder_info` collaborator, passed in as a parameter). -/
def validate_audio_sample_rate (dest_audio_codec source_sample_rates : PyVal)
    (query_encoder_info : PyVal → Except PyErr PyVal) : Except PyErr Unit := do
  match source_sample_rates with
  | .none => pure ()
  | .list src => do
    let dest_encoder_info ← query_encoder_info dest_audio_codec
    let rates_val ← dest_encoder_info.get "sample_rates" PyVal.none
    match rates_val with
    | .list rates =>
      if src.any (fun x => ¬ rates.contains x) then
        throw .unsupportedSampleRate
      else pure ()
    | _ => throw .typeError
  | _ => throw .typeError

/-- `validation.validate_unsupported_data_streams`. -/
def validate_unsupported_data_streams (metadata : PyVal)
    (strip_unsupported_data_streams : Bool) : Except PyErr Bool := do
  let u ← find_unsupported_data_streams metadata
  if ¬ strip_unsupported_data_streams ∧ u.length ≠ 0 then
    throw .unsupportedStream
  else pure true

/-- `validation.validate_unsupported_subtitle_streams`: an unknown
(`None`) target container is a caller contract violation. -/
def validate_unsupported_subtitle_streams (metadata : PyVal)
    (strip_unsupported_subtitle_streams : Bool) (target_container : PyVal) :
    Except PyErr Bool := do
  match target_container with
  | .none => throw .invalidVideo
  | tc => do
    let u ← find_unsupported_subtitle_streams metadata tc
    if ¬ strip_unsupported_subtitle_streams ∧ u.length ≠ 0 then
      throw .unsupportedSubtitleCodecConversion
    else pure true

/-- `validation._get_src_audio_codec`: the source audio codec or `None`. -/
def get_src_audio_codec (src_params : PyVal) : Except PyErr PyVal := do
  let audio ← src_params.get "audio" (.dict [])
  audio.get "codec" PyVal.none

/-- `validation._get_dst_audio_codec`: the explicit destination audio
codec, else the muxer-info default, else `None`; asserts the destination
format is not an exclusive demuxer. -/
def get_dst_audio_codec (dst_params : PyVal) (dst_muxer_info : Option PyVal) :
    Except PyErr PyVal := do
  let fmt ← dst_params.item "format"
  let cont ←
    match fmt with
    | .str s => Container.construct s
    | _ => throw .unsupportedVideoFormat
  if cont.is_exclusive_demuxer then throw .assertionError
  let audio ← dst_params.get "audio" (.dict [])
  let codec ← audio.get "codec" PyVal.none
  match codec with
  | .none =>
    match dst_muxer_info with
    | Option.none => pure PyVal.none
    | some mi => mi.get "default_audio_codec" PyVal.none
  | _ => do
    let a ← dst_params.item "audio"
    a.item "codec"

/-- `validation.validate_transcoding_params` from `validation.py`.

The function's first statement calls `meta.create_params` with the
keyword argument `sample_rates=meta.get_sample_rates(src_metadata)`.
CPython first evaluates the six argument expressions (the `meta`
accessors on the source metadata) and then binds the arguments against
`create_params`' parameter list; since that list has no `sample_rates`
entry (see `create_params_parameters`), the call raises `TypeError`
before the body of `create_params` — or any validation below — can run.
The embedding keeps the whole pipeline, guarded by the keyword-binding
check, exactly as written; note that even the guarded continuation would
stop at `src_params["format"]` with a `KeyError`, because
`create_params` stores the container under the key `"container"`.

`query_encoder_info` is the external ffmpeg-introspection collaborator
used by `validate_audio_sample_rate`, passed in as a parameter. -/
def validate_transcoding_params (dst_params src_metadata : PyVal)
    (dst_muxer_info : Option PyVal)
    (strip_unsupported_data_streams strip_unsupported_subtitle_streams : Bool)
    (query_encoder_info : PyVal → Except PyErr PyVal) : Except PyErr Bool := do
  let fmt ← get_format src_metadata
  let res ← get_resolution src_metadata
  let vcod ← get_video_codec src_metadata
  let acod ← get_audio_codec src_metadata
  let fr ← get_frame_rate src_metadata
  let _sample_rates ← get_sample_rates src_metadata
  if "sample_rates" ∈ create_params_parameters then
    -- Unreachable: CPython rejects the keyword.  Were it accepted, the
    -- value could not be bound anyway (no such parameter exists).
    let src_params := create_params fmt res vcod acod fr
      PyVal.none PyVal.none PyVal.none
    let sfmt ← src_params.item "format"
    let _ ← validate_format sfmt
    let dfmt ← dst_params.item "format"
    let _ ← validate_target_format dfmt
    let svideo ← src_params.item "video"
    let svc ← svideo.item "codec"
    let _ ← validate_video_codec sfmt svc
    let dvideo ← dst_params.item "video"
    let dvc ← dvideo.item "codec"
    let _ ← validate_video_codec dfmt dvc
    let _ ← validate_video_codec_conversion svc dvc
    let src_audio_codec ← get_src_audio_codec src_params
    let audio_stream ← get_audio_stream src_metadata
    let _ ←
      match src_audio_codec with
      | .none => pure true
      | sac => do
        let _ ← validate_audio_codec sfmt sac
        let dest_audio_codec ← get_dst_audio_codec dst_params dst_muxer_info
        match dest_audio_codec with
        | .none =>
          match dst_muxer_info with
          | some _ => throw .unsupportedAudioCodecConversion
          | Option.none => pure true
        | dac => do
          let _ ← validate_audio_codec dfmt dac
          let _ ← validate_audio_codec_conversion sac dac audio_stream
          let saudio ← src_params.item "audio"
          let srates ← saudio.get "sample_rates" PyVal.none
          let _ ← validate_audio_sample_rate dac srates query_encoder_info
          pure true
    let sres ← src_params.item "resolution"
    let dres ← dst_params.item "resolution"
    let _ ← validate_resolution sres dres
    let sfr ← src_params.get "frame_rate" PyVal.none
    let _ ← validate_frame_rate dst_params sfr
    let _ ← validate_unsupported_data_streams src_metadata
      strip_unsupported_data_streams
    let dfmt2 ← dst_params.item "format"
    let _ ← validate_unsupported_subtitle_streams src_metadata
      strip_unsupported_subtitle_streams dfmt2
    pure true
  else
    throw .typeError

/-! ## Claim C1 — reflexivity of the conversion tables -/

/-- C1 (counterexample): the claim "every codec with any listed
conversions lists itself" fails on the code: the `h263` row of
`_VIDEO_SUPPORTED_CONVERSIONS` is non-empty but does not contain
`"h263"`, so `VideoCodec.H_263.can_convert("h263")` is false. -/
theorem C1_counterexample :
    VideoCodec.H_263.get_supported_conversions ≠ [] ∧
    VideoCodec.H_263.can_convert VideoCodec.H_263.value = false := by
  decide

/-- C1 (amended): same-codec passthrough is listed for every codec with a
non-empty conversion-table entry **except** the video codecs `h263`,
`theora` and `wmv3` and the audio codec `wmapro`, whose non-empty rows
omit themselves. -/
theorem C1_reflexivity_amended :
    (∀ c : VideoCodec,
      c ≠ VideoCodec.H_263 → c ≠ VideoCodec.THEORA → c ≠ VideoCodec.WMV3 →
      c.get_supported_conversions ≠ [] → c.can_convert c.value = true) ∧
    (∀ a : AudioCodec, a ≠ AudioCodec.WMAPRO →
      a.get_supported_conversions ≠ [] → a.can_convert a.value = true) ∧
    (∀ s : SubtitleCodec,
      s.get_supported_conversions ≠ [] → s.can_convert s.value = true) := by
  decide

/-- C1 witness: the amended reflexivity applied at `h264`. -/
theorem C1_reflexivity_amended_witness :
    VideoCodec.H_264.can_convert VideoCodec.H_264.value = true :=
  C1_reflexivity_amended.1 VideoCodec.H_264
    (by decide) (by decide) (by decide) (by decide)

/-! ## Claim C5 — audio sample-rate support -/

/-- C5: `AudioCodec.is_supported_sample_rate` returns false for a codec
with no encoder; with encoder info carrying a `sample_rates` list it is
exact membership in that list (the fallback table is not consulted);
otherwise it consults the hardcoded table keyed by encoder name,
returning false for an encoder absent from that table. -/
theorem C5_is_supported_sample_rate_spec :
    ∀ (a : AudioCodec) (rate : Int) (info : Option EncoderInfo),
    (a.get_encoder = Option.none →
      a.is_supported_sample_rate rate info = false) ∧
    (∀ (e : String) (rates : List Int), a.get_encoder = some e →
      info = some ⟨some rates⟩ →
      a.is_supported_sample_rate rate info = rates.contains rate) ∧
    (∀ (e : String), a.get_encoder = some e →
      (info = Option.none ∨ info = some ⟨Option.none⟩) →
      a.is_supported_sample_rate rate info =
        (match SUPPORTED_SAMPLE_RATES.lookup e with
         | some sr => sr.contains rate
         | Option.none => false)) := by
  intro a rate info
  refine ⟨?_, ?_, ?_⟩
  · intro h
    simp [AudioCodec.is_supported_sample_rate, h]
  · intro e rates he hinfo
    subst hinfo
    simp [AudioCodec.is_supported_sample_rate, he]
  · intro e he hinfo
    rcases hinfo with h | h <;> subst h <;>
      simp [AudioCodec.is_supported_sample_rate, he, sample_rate_fallback]

/-- C5 witness: `aac` with encoder info `{sample_rates: [48000]}`
supports 48000 (the spec's example), via the exact-membership branch. -/
theorem C5_is_supported_sample_rate_witness :
    AudioCodec.AAC.is_supported_sample_rate 48000 (some ⟨some [48000]⟩) = true := by
  rw [(C5_is_supported_sample_rate_spec AudioCodec.AAC 48000
        (some ⟨some [48000]⟩)).2.1 "aac" [48000] rfl rfl]
  decide

/-! ## Claim C7 — derived codec lists of exclusive demuxers -/

/-- C7: for each of the two exclusive demuxers, the supported video,
audio and subtitle codec lists equal, as sets, the union of the
corresponding lists over the matching muxers. -/
theorem C7_exclusive_demuxer_union :
    (Container.c_QUICK_TIME_DEMUXER.get_supported_video_codecs.toFinset =
      ((Container.c_QUICK_TIME_DEMUXER.get_matching_muxers).flatMap
        Container.get_supported_video_codecs).toFinset) ∧
    (Container.c_QUICK_TIME_DEMUXER.get_supported_audio_codecs.toFinset =
      ((Container.c_QUICK_TIME_DEMUXER.get_matching_muxers).flatMap
        Container.get_supported_audio_codecs).toFinset) ∧
    (Container.c_QUICK_TIME_DEMUXER.get_supported_subtitle_codecs.toFinset =
      ((Container.c_QUICK_TIME_DEMUXER.get_matching_muxers).flatMap
        Container.get_supported_subtitle_codecs).toFinset) ∧
    (Container.c_MATROSKA_WEBM_DEMUXER.get_supported_video_codecs.toFinset =
      ((Container.c_MATROSKA_WEBM_DEMUXER.get_matching_muxers).flatMap
        Container.get_supported_video_codecs).toFinset) ∧
    (Container.c_MATROSKA_WEBM_DEMUXER.get_supported_audio_codecs.toFinset =
      ((Container.c_MATROSKA_WEBM_DEMUXER.get_matching_muxers).flatMap
        Container.get_supported_audio_codecs).toFinset) ∧
    (Container.c_MATROSKA_WEBM_DEMUXER.get_supported_subtitle_codecs.toFinset =
      ((Container.c_MATROSKA_WEBM_DEMUXER.get_matching_muxers).flatMap
        Container.get_supported_subtitle_codecs).toFinset) := by
  decide

/-! ## Claim C10 — case handling in `from_name` constructors -/

/-- A container value string is recognized by the enum exactly when it is
in the supported-format list (the enum's values are that list). -/
theorem Container_ofValue_isSome_eq (s : String) :
    (Container.ofValue s).isSome = Container.is_supported s := by
  unfold Container.ofValue
  split <;>
    simp_all [Container.is_supported, list_supported_formats,
      Container.members, Container.value]

/-- C10: `Container.from_name` lower-cases its argument before enum
construction — it succeeds exactly when the lower-cased name is a
supported format, so any casing of a supported container name is
accepted; `Container.is_supported` itself and the codec `from_name`
constructors are case-sensitive. -/
theorem C10_from_name_casing :
    (∀ s : String,
      (Container.from_name s).isOk = Container.is_supported (pyLower s)) ∧
    Container.from_name "MP4" = .ok Container.c_MP4 ∧
    Container.is_supported "MP4" = false ∧
    VideoCodec.from_name "h264" = .ok VideoCodec.H_264 ∧
    VideoCodec.from_name "H264" = .error PyErr.unsupportedVideoCodec ∧
    AudioCodec.from_name "AAC" = .error PyErr.unsupportedAudioCodec ∧
    SubtitleCodec.from_name "SUBRIP" = .error PyErr.unsupportedSubtitleCodec := by
  refine ⟨?_, rfl, by decide, rfl, rfl, rfl, rfl⟩
  intro s
  rw [← Container_ofValue_isSome_eq]
  unfold Container.from_name Container.construct
  cases Container.ofValue (pyLower s) <;> simp [Except.isOk, Except.toBool]

/-- C10 witness: a mixed-case spelling of a supported container name is
accepted by `from_name` (applied through the general casing law). -/
theorem C10_from_name_casing_witness :
    (Container.from_name "Matroska").isOk = true := by
  rw [C10_from_name_casing.1 "Matroska"]
  decide

/-! ## Claim C8 — replace-streams command shape -/

/-- Probed metadata of an input file with one video stream (index 0) and
one audio stream (index 1). -/
def c8_input_metadata : PyVal :=
  .dict [
    ("format", .dict [("format_name", .str "mov,mp4,m4a,3gp,3g2,mj2")]),
    ("streams", .list [
      .dict [("index", .int 0), ("codec_type", .str "video"),
             ("codec_name", .str "h264")],
      .dict [("index", .int 1), ("codec_type", .str "audio"),
             ("codec_name", .str "mp3")] ]) ]

/-- Probed metadata of a replacement source with one video stream. -/
def c8_replacement_metadata : PyVal :=
  .dict [
    ("format", .dict [("format_name", .str "matroska,webm")]),
    ("streams", .list [
      .dict [("index", .int 0), ("codec_type", .str "video"),
             ("codec_name", .str "vp8")] ]) ]

/-- C8: with one video + one audio input stream, a one-video replacement
source, stream type `"v"`, empty extra parameters, no container and both
strip flags off, `replace_streams_command` produces exactly the claimed
argument vector, with no audio or container flags. -/
theorem C8_replace_streams_command_shape :
    replace_streams_command "input.mp4" "replacement.mkv" "output.mkv"
      "v" (.dict []) Option.none false false
      c8_input_metadata c8_replacement_metadata =
    .ok [ "ffmpeg", "-nostdin",
          "-i", "input.mp4",
          "-i", "replacement.mkv",
          "-map", "1:v",
          "-map", "0",
          "-map", "-0:v",
          "-copy_unknown",
          "-c:v", "copy",
          "-c:d", "copy",
          "output.mkv" ] := by
  rfl

/-! ## Claims C3 and C4 — `validate_transcoding_params` -/

/-- A trivial stand-in for the external `query_encoder_info`
collaborator (never reached by the pipeline as shipped). -/
def no_encoder_info : PyVal → Except PyErr PyVal :=
  fun _ => .ok (.dict [])

/-- Source metadata whose only video stream has `r_frame_rate` 122
(claim C3's literal input, probed from a QuickTime/mov file). -/
def c3_src_metadata : PyVal :=
  .dict [
    ("format", .dict [("format_name", .str "mov,mp4,m4a,3gp,3g2,mj2"),
                      ("duration", .str "10")]),
    ("streams", .list [
      .dict [("index", .int 0), ("codec_type", .str "video"),
             ("codec_name", .str "h264"),
             ("width", .int 1920), ("height", .int 1080),
             ("r_frame_rate", .str "122")] ]) ]

/-- Claim C3's destination parameters:
`{container: "mov", video: {codec: "mpeg1video"}}`. -/
def c3_dst_params : PyVal :=
  .dict [("container", .str "mov"),
         ("video", .dict [("codec", .str "mpeg1video")])]

/-- C3 (code bug): `validate_transcoding_params` cannot succeed on the
claimed input — or any input — because its very first statement calls
`meta.create_params` with a `sample_rates` keyword argument that
`create_params` (as defined in `meta.py`) does not accept, raising
`TypeError`.  The repository's own tests
(`test_source_frame_rate_when_capped_is_validated_as_max_when_implicitly_used_as_target_frame_rate`)
expect this exact 122-fps/mpeg1video scenario to validate successfully
by capping to 60 fps; the frame-rate logic itself (`validate_frame_rate`)
does resolve 122 to 60/1 when reached directly. -/
theorem C3_validate_transcoding_params_crashes :
    validate_transcoding_params c3_dst_params c3_src_metadata
      Option.none false false no_encoder_info = .error PyErr.typeError := by
  rfl

/-- Source metadata for claim C4: an mp4 file with an h264 video stream
and an mp3 audio stream. -/
def c4_src_metadata : PyVal :=
  .dict [
    ("format", .dict [("format_name", .str "mov,mp4,m4a,3gp,3g2,mj2"),
                      ("duration", .str "10")]),
    ("streams", .list [
      .dict [("index", .int 0), ("codec_type", .str "video"),
             ("codec_name", .str "h264"),
             ("width", .int 1920), ("height", .int 1080),
             ("r_frame_rate", .str "60")],
      .dict [("index", .int 1), ("codec_type", .str "audio"),
             ("codec_name", .str "mp3"), ("channels", .int 2),
             ("sample_rate", .str "44100")] ]) ]

/-- Destination parameters carrying no video codec, built exactly as the
repository's tests build them: `create_params("mp4", [640, 480], None,
"mp3", 60)`. -/
def c4_dst_params : PyVal :=
  create_params (.str "mp4") (.list [.int 640, .int 480]) PyVal.none
    (.str "mp3") (.int 60) PyVal.none PyVal.none PyVal.none

/-- C4 (code bug): on destination parameters with no video codec the
pipeline raises `TypeError` from the `create_params` keyword mismatch —
not `MissingVideoCodec` as the claim (and the repository's test
`test_validate_transcoding_params_should_reject_dst_params_without_video_codec`)
requires.  `validation.py` never raises `MissingVideoCodec` anywhere:
the exception class exists in `exceptions.py` but the revision of
`validate_transcoding_params` in the source checks only the first source
video codec via `validate_video_codec`, which reports
`UnsupportedVideoCodec` even for a missing codec — and is unreachable
anyway. -/
theorem C4_missing_video_codec_not_raised :
    validate_transcoding_params c4_dst_params c4_src_metadata
      Option.none false false no_encoder_info = .error PyErr.typeError := by
  rfl

/-! ## Claim C2 — frame-rate validation -/

/-- Computation rule: `pure` in the `Except` monad. -/
@[simp] theorem except_pure_eq_ok {ε α : Type} (a : α) :
    (pure a : Except ε α) = Except.ok a := rfl

/-- Computation rule: `throw` in the `Except` monad. -/
@[simp] theorem except_throw_eq_error {ε α : Type} (e : ε) :
    (throw e : Except ε α) = Except.error e := rfl

/-- Computation rule: bind on a success. -/
@[simp] theorem except_bind_ok {ε α β : Type} (a : α) (f : α → Except ε β) :
    (Except.ok a >>= f) = f a := rfl

/-- Computation rule: bind on an error. -/
@[simp] theorem except_bind_error {ε α β : Type} (e : ε) (f : α → Except ε β) :
    (Except.error e >>= f : Except ε β) = Except.error e := rfl

/-- Computation rule: map on a success. -/
@[simp] theorem except_map_ok {ε α β : Type} (f : α → β) (a : α) :
    (f <$> (Except.ok a : Except ε α)) = Except.ok (f a) := rfl

/-- Computation rule: map on an error. -/
@[simp] theorem except_map_error {ε α β : Type} (f : α → β) (e : ε) :
    (f <$> (Except.error e : Except ε α) : Except ε β) = Except.error e := rfl

/-- The substitution step as the spec words it: replace the exact
normalized source rate by its registered substitute when the destination
codec has one, else keep the rate. -/
def spec_substituted (c : String) (d : FrameRate) : FrameRate :=
  match (FRAME_RATE_SUBSTITUTIONS.lookup c).bind (fun rules => rules.lookup d.normalized) with
  | some s => s
  | Option.none => d

/-- The implicit-rate adjustment as the spec words it: clamp to the
destination codec's registered maximum when the source's
double-precision `to_float()` exceeds it (propagating the possible
`OverflowError`); otherwise substitute; otherwise pass through. -/
def spec_adjusted_frame_rate (c : String) (d : FrameRate) :
    Except PyErr FrameRate :=
  match MAX_SUPPORTED_FRAME_RATE.lookup c with
  | some m =>
    match d.normalized.to_float_gt m with
    | .ok true => .ok ⟨m, 1⟩
    | .ok false => .ok (spec_substituted c d)
    | .error e => .error e
  | Option.none => .ok (spec_substituted c d)

/-- The code's special-case guess, completed with the pass-through
default, agrees with the spec-side adjustment. -/
theorem guess_special_eq_spec_adjusted (d : FrameRate) (c : String) :
    (guess_target_frame_rate_for_special_cases d (.str c) >>=
      fun target_frame_rate => pure (target_frame_rate.getD d)) =
      spec_adjusted_frame_rate c d := by
  unfold guess_target_frame_rate_for_special_cases spec_adjusted_frame_rate spec_substituted
  cases hm : MAX_SUPPORTED_FRAME_RATE.lookup c with
  | none =>
    cases hs : FRAME_RATE_SUBSTITUTIONS.lookup c with
    | none => simp [hm, hs]
    | some rules =>
      cases hr : rules.lookup d.normalized with
      | none => simp [hm, hs, hr]
      | some s => simp [hm, hs, hr]
  | some m =>
    cases hgt : FrameRate.to_float_gt d.normalized m with
    | error e => simp [hm, hgt]
    | ok b =>
      cases b with
      | true => simp [hm, hgt]
      | false =>
        cases hs : FRAME_RATE_SUBSTITUTIONS.lookup c with
        | none => simp [hm, hgt, hs]
        | some rules =>
          cases hr : rules.lookup d.normalized with
          | none => simp [hm, hgt, hs, hr]
          | some s => simp [hm, hgt, hs, hr]


/-- Evaluation of `validate_frame_rate` when the destination carries an
explicit `frame_rate`: the decoded rate is checked directly. -/
theorem validate_frame_rate_explicit (kvs : List (String × PyVal))
    (src raw : PyVal) (h : kvs.lookup "frame_rate" = some raw) :
    validate_frame_rate (.dict kvs) src =
      (match FrameRate.decode raw with
       | .ok t =>
         if supported_frame_rates.contains t.normalized then .ok true
         else .error .invalidFrameRate
       | .error _ => .error .invalidFrameRate) := by
  unfold validate_frame_rate
  simp only [PyVal.hasKey, PyVal.item, h, Option.isSome_some, except_bind_ok,
    if_true]
  cases hdec : FrameRate.decode raw with
  | ok t =>
    simp only [except_bind_ok, except_pure_eq_ok, except_throw_eq_error]
  | error e => simp

/-- Evaluation of `validate_frame_rate` when no explicit rate is given
and the source rate decodes: the adjusted rate is checked. -/
theorem validate_frame_rate_implicit (kvs video_kvs : List (String × PyVal))
    (src : PyVal) (c : String) (d : FrameRate)
    (hfr : kvs.lookup "frame_rate" = Option.none)
    (hv : kvs.lookup "video" = some (.dict video_kvs))
    (hc : video_kvs.lookup "codec" = some (.str c))
    (hdec : FrameRate.decode src = .ok d) :
    validate_frame_rate (.dict kvs) src =
      (match spec_adjusted_frame_rate c d with
       | .ok t =>
         if supported_frame_rates.contains t.normalized then .ok true
         else .error .invalidFrameRate
       | .error e => .error e) := by
  unfold validate_frame_rate
  simp only [PyVal.hasKey, hfr, Option.isSome_none, except_bind_ok,
    Bool.false_eq_true, if_false]
  have hsrc : src ≠ PyVal.none := by
    intro hs
    rw [hs] at hdec
    exact absurd hdec (by simp [FrameRate.decode])
  cases src with
  | none => exact absurd rfl hsrc
  | int n =>
    simp only [hdec, guess_target_frame_rate, PyVal.item, hv, hc,
      except_bind_ok]
    rw [guess_special_eq_spec_adjusted]
    cases hs : spec_adjusted_frame_rate c d with
    | ok t => simp
    | error e => simp
  | str s =>
    simp only [hdec, guess_target_frame_rate, PyVal.item, hv, hc,
      except_bind_ok]
    rw [guess_special_eq_spec_adjusted]
    cases hs : spec_adjusted_frame_rate c d with
    | ok t => simp
    | error e => simp
  | list xs =>
    simp only [hdec, guess_target_frame_rate, PyVal.item, hv, hc,
      except_bind_ok]
    rw [guess_special_eq_spec_adjusted]
    cases hs : spec_adjusted_frame_rate c d with
    | ok t => simp
    | error e => simp
  | dict kvs' =>
    simp only [hdec, guess_target_frame_rate, PyVal.item, hv, hc,
      except_bind_ok]
    rw [guess_special_eq_spec_adjusted]
    cases hs : spec_adjusted_frame_rate c d with
    | ok t => simp
    | error e => simp

/-- Evaluation of `validate_frame_rate` when no explicit rate is given
and the source rate does not decode: `InvalidFrameRate`. -/
theorem validate_frame_rate_undecodable (kvs : List (String × PyVal))
    (src : PyVal) (e : PyErr)
    (hfr : kvs.lookup "frame_rate" = Option.none)
    (hdec : FrameRate.decode src = .error e) :
    validate_frame_rate (.dict kvs) src = .error .invalidFrameRate := by
  unfold validate_frame_rate
  simp only [PyVal.hasKey, hfr, Option.isSome_none, except_bind_ok,
    Bool.false_eq_true, if_false]
  cases src with
  | none => rfl
  | int n => simp [hdec]
  | str s => simp [hdec]
  | list xs => simp [hdec]
  | dict kvs' => simp [hdec]

/-- C2 (amended): `validate_frame_rate` uses an explicitly supplied
destination rate as-is (success iff its normalization is supported,
regardless of the source rate and of the cap/substitution registries);
with no explicit rate it decodes the source rate and applies the
registered cap when the source exceeds it IN THE CODE'S
DOUBLE-PRECISION COMPARISON `to_float() > max` — for the registered
maximum 60 that means the exact rate exceeds `60 + 2 ^ (-48)`, and a
quotient at or above `2 ^ 1024 - 2 ^ 970` makes the conversion raise
`OverflowError`, which propagates — else the registered substitution
for the exact normalized rate, else passes it through
(`spec_adjusted_frame_rate`) — succeeding iff the resulting rate,
normalized, is in the supported set, and reporting `InvalidFrameRate`
otherwise (also when decoding fails). -/
theorem C2_validate_frame_rate_spec :
    ∀ (kvs : List (String × PyVal)) (src : PyVal),
    (∀ raw : PyVal, kvs.lookup "frame_rate" = some raw →
      validate_frame_rate (.dict kvs) src =
        (match FrameRate.decode raw with
         | .ok t =>
           if supported_frame_rates.contains t.normalized then .ok true
           else .error .invalidFrameRate
         | .error _ => .error .invalidFrameRate)) ∧
    (∀ (c : String) (video_kvs : List (String × PyVal)) (d : FrameRate),
      kvs.lookup "frame_rate" = Option.none →
      kvs.lookup "video" = some (.dict video_kvs) →
      video_kvs.lookup "codec" = some (.str c) →
      FrameRate.decode src = .ok d →
      validate_frame_rate (.dict kvs) src =
        (match spec_adjusted_frame_rate c d with
         | .ok t =>
           if supported_frame_rates.contains t.normalized then .ok true
           else .error .invalidFrameRate
         | .error e => .error e)) ∧
    (∀ e : PyErr, kvs.lookup "frame_rate" = Option.none →
      FrameRate.decode src = .error e →
      validate_frame_rate (.dict kvs) src = .error .invalidFrameRate) :=
  fun kvs src =>
    ⟨fun raw h => validate_frame_rate_explicit kvs src raw h,
     fun c video_kvs d hfr hv hc hdec =>
       validate_frame_rate_implicit kvs video_kvs src c d hfr hv hc hdec,
     fun e hfr hdec => validate_frame_rate_undecodable kvs src e hfr hdec⟩

set_option maxRecDepth 4000 in
/-- C2 witness: with no explicit destination rate, destination codec
`mpeg1video` and source rate `"122"`, the rate is capped to the
registered maximum 60 and validation succeeds. -/
theorem C2_validate_frame_rate_witness :
    validate_frame_rate
      (.dict [("video", .dict [("codec", .str "mpeg1video")])])
      (.str "122") = .ok true := by
  rw [(C2_validate_frame_rate_spec [("video", .dict [("codec", .str "mpeg1video")])]
        (.str "122")).2.1 "mpeg1video" [("codec", .str "mpeg1video")]
        ⟨122, 1⟩ rfl rfl rfl (by rfl)]
  rfl

set_option maxRecDepth 4000 in
/-- C2 counterexample, refuting the original claim's "if the destination
video codec has a registered maximum and the source exceeds it, the rate
is clamped to that maximum": with no explicit destination rate,
destination video codec `mpeg1video` (registered maximum 60) and
implicit source rate `16888498602639361/281474976710656` — exactly
`60 + 2 ^ (-48)`, strictly above the maximum (first conjunct) — the rate
is NOT clamped: the quotient lies halfway between the doubles `60.0` and
`60 + 2 ^ (-47)`, CPython's correctly-rounded division returns the even
mantissa, i.e. exactly `60.0`, the comparison `60.0 > 60` is false, the
uncapped rate is not in the supported set, and validation raises
`InvalidFrameRate` (second conjunct) instead of clamping to 60 and
succeeding. -/
theorem C2_counterexample :
    (60 : Int) * 281474976710656 < 16888498602639361 ∧
    validate_frame_rate
      (.dict [("video", .dict [("codec", .str "mpeg1video")])])
      (.str "16888498602639361/281474976710656") =
      .error .invalidFrameRate := by
  exact ⟨by decide, by rfl⟩

/-! ## Claim C9 — metadata accessor robustness -/

/-- A stream entry that supports `.get`, i.e. a dictionary. -/
def wf_stream (v : PyVal) : Bool :=
  match v with
  | .dict _ => true
  | _ => false

/-- Metadata shaped as ffprobe produces it: a dictionary whose
`streams` entry, when present, is a list of stream dictionaries (each
stream's individual fields may be missing or hold arbitrary values). -/
def wf_metadata (md : PyVal) : Bool :=
  match md with
  | .dict kvs =>
    match kvs.lookup "streams" with
    | Option.none => true
    | some (.list ss) => ss.all wf_stream
    | some _ => false
  | _ => false

/-- The comprehension of `get_attribute_from_all_streams` cannot fail on
a list of stream dictionaries. -/
theorem attr_from_streams_ok (attr : String) (ct : Option String) :
    ∀ ss : List PyVal, (∀ s ∈ ss, wf_stream s = true) →
    ∃ xs, attr_from_streams attr ct ss = .ok xs := by
  intro ss
  induction ss with
  | nil => exact fun _ => ⟨[], rfl⟩
  | cons s rest ih =>
    intro h
    have hs := h s (by simp)
    have hrest : ∀ x ∈ rest, wf_stream x = true :=
      fun x hx => h x (by simp [hx])
    obtain ⟨xs, hxs⟩ := ih hrest
    cases s with
    | dict fs =>
      cases ct with
      | none =>
        exact ⟨((fs.lookup attr).getD PyVal.none) :: xs,
          by simp [attr_from_streams, PyVal.get, hxs]⟩
      | some t =>
        by_cases hk : (((fs.lookup "codec_type").getD PyVal.none).pyEq (.str t)) = true
        · exact ⟨((fs.lookup attr).getD PyVal.none) :: xs,
            by simp [attr_from_streams, PyVal.get, hk, hxs]⟩
        · exact ⟨xs, by simp [attr_from_streams, PyVal.get, hk, hxs]⟩
    | none => simp [wf_stream] at hs
    | int n => simp [wf_stream] at hs
    | str s' => simp [wf_stream] at hs
    | list l => simp [wf_stream] at hs

/-- The comprehension of `get_resolutions` cannot fail on a list of
stream dictionaries. -/
theorem resolutions_from_streams_ok :
    ∀ ss : List PyVal, (∀ s ∈ ss, wf_stream s = true) →
    ∃ xs, resolutions_from_streams ss = .ok xs := by
  intro ss
  induction ss with
  | nil => exact fun _ => ⟨[], rfl⟩
  | cons s rest ih =>
    intro h
    have hs := h s (by simp)
    have hrest : ∀ x ∈ rest, wf_stream x = true :=
      fun x hx => h x (by simp [hx])
    obtain ⟨xs, hxs⟩ := ih hrest
    cases s with
    | dict fs =>
      by_cases hk : (((fs.lookup "codec_type").getD PyVal.none).pyEq (.str "video")) = true
      · exact ⟨.list [(fs.lookup "width").getD PyVal.none,
            (fs.lookup "height").getD PyVal.none] :: xs,
          by simp [resolutions_from_streams, PyVal.get, hk, hxs]⟩
      · exact ⟨xs, by simp [resolutions_from_streams, PyVal.get, hk, hxs]⟩
    | none => simp [wf_stream] at hs
    | int n => simp [wf_stream] at hs
    | str s' => simp [wf_stream] at hs
    | list l => simp [wf_stream] at hs

/-- The comprehension of `get_streams` cannot fail on a list of stream
dictionaries. -/
theorem streams_filter_ok (ct : Option String) :
    ∀ ss : List PyVal, (∀ s ∈ ss, wf_stream s = true) →
    ∃ xs, streams_filter ct ss = .ok xs := by
  intro ss
  induction ss with
  | nil => exact fun _ => ⟨[], rfl⟩
  | cons s rest ih =>
    intro h
    have hs := h s (by simp)
    have hrest : ∀ x ∈ rest, wf_stream x = true :=
      fun x hx => h x (by simp [hx])
    obtain ⟨xs, hxs⟩ := ih hrest
    cases s with
    | dict fs =>
      cases ct with
      | none => exact ⟨PyVal.dict fs :: xs, by simp [streams_filter, PyVal.get, hxs]⟩
      | some t =>
        by_cases hk : (((fs.lookup "codec_type").getD PyVal.none).pyEq (.str t)) = true
        · exact ⟨PyVal.dict fs :: xs, by simp [streams_filter, PyVal.get, hk, hxs]⟩
        · exact ⟨xs, by simp [streams_filter, PyVal.get, hk, hxs]⟩
    | none => simp [wf_stream] at hs
    | int n => simp [wf_stream] at hs
    | str s' => simp [wf_stream] at hs
    | list l => simp [wf_stream] at hs

/-- C9 (counterexample): the claim says every listed accessor tolerates a
missing `streams` list, but the first-match accessors use direct
indexing: on metadata without a `streams` key, `get_resolution`,
`get_frame_rate`, `get_video_codec` and `get_audio_codec` all raise
`KeyError`. -/
theorem C9_counterexample :
    get_resolution (.dict []) = .error PyErr.keyError ∧
    get_frame_rate (.dict []) = .error PyErr.keyError ∧
    get_video_codec (.dict []) = .error PyErr.keyError ∧
    get_audio_codec (.dict []) = .error PyErr.keyError :=
  ⟨rfl, rfl, rfl, rfl⟩

/-- C9 (amended): the `.get`-based accessors — `get_resolutions`,
`get_frame_rates`, `get_sample_rates`, `get_codecs`, `get_streams`,
`count_streams`, `find_stream_indexes`,
`get_attribute_from_all_streams` — never raise on metadata whose
`streams` entry is a list of stream dictionaries (missing per-stream
fields yield `None` or skip the stream), and a missing `streams` list
yields an empty (or zero) result; the first-match accessors
`get_resolution`, `get_frame_rate`, `get_video_codec` and
`get_audio_codec`, however, use direct indexing and raise `KeyError`
when `streams` is missing. -/
theorem C9_accessors_amended :
    (∀ (kvs : List (String × PyVal)) (ss : List PyVal) (attr : String)
        (ct : Option String),
      kvs.lookup "streams" = some (.list ss) →
      ss.all wf_stream = true →
      (get_resolutions (.dict kvs)).isOk = true ∧
      (get_frame_rates (.dict kvs)).isOk = true ∧
      (get_sample_rates (.dict kvs)).isOk = true ∧
      (get_codecs (.dict kvs) ct).isOk = true ∧
      (get_streams (.dict kvs) ct).isOk = true ∧
      (count_streams (.dict kvs) ct).isOk = true ∧
      (find_stream_indexes (.dict kvs) ct).isOk = true ∧
      (get_attribute_from_all_streams (.dict kvs) attr ct).isOk = true) ∧
    (∀ (kvs : List (String × PyVal)) (attr : String) (ct : Option String),
      kvs.lookup "streams" = Option.none →
      get_resolutions (.dict kvs) = .ok [] ∧
      get_frame_rates (.dict kvs) = .ok [] ∧
      get_sample_rates (.dict kvs) = .ok [] ∧
      get_codecs (.dict kvs) ct = .ok [] ∧
      get_streams (.dict kvs) ct = .ok [] ∧
      count_streams (.dict kvs) ct = .ok 0 ∧
      find_stream_indexes (.dict kvs) ct = .ok [] ∧
      get_attribute_from_all_streams (.dict kvs) attr ct = .ok [] ∧
      get_resolution (.dict kvs) = .error .keyError ∧
      get_frame_rate (.dict kvs) = .error .keyError ∧
      get_video_codec (.dict kvs) = .error .keyError ∧
      get_audio_codec (.dict kvs) = .error .keyError) := by
  constructor
  · intro kvs ss attr ct hlk hwf
    have hwf' : ∀ s ∈ ss, wf_stream s = true := by
      intro s hsmem
      exact List.all_eq_true.mp hwf s hsmem
    obtain ⟨xs1, h1⟩ := resolutions_from_streams_ok ss hwf'
    obtain ⟨xs2, h2⟩ := attr_from_streams_ok "r_frame_rate" (some "video") ss hwf'
    obtain ⟨xs3, h3⟩ := attr_from_streams_ok "sample_rate" (some "audio") ss hwf'
    obtain ⟨xs4, h4⟩ := attr_from_streams_ok "codec_name" ct ss hwf'
    obtain ⟨xs5, h5⟩ := streams_filter_ok ct ss hwf'
    obtain ⟨xs6, h6⟩ := attr_from_streams_ok "index" ct ss hwf'
    obtain ⟨xs7, h7⟩ := attr_from_streams_ok attr ct ss hwf'
    refine ⟨?_, ?_, ?_, ?_, ?_, ?_, ?_, ?_⟩ <;>
      simp [get_resolutions, get_frame_rates, get_sample_rates, get_codecs,
        get_streams, count_streams, find_stream_indexes,
        get_attribute_from_all_streams, PyVal.get, PyVal.iter, hlk,
        h1, h2, h3, h4, h5, h6, h7, Except.isOk, Except.toBool]
  · intro kvs attr ct hlk
    refine ⟨?_, ?_, ?_, ?_, ?_, ?_, ?_, ?_, ?_, ?_, ?_, ?_⟩ <;>
      simp [get_resolutions, get_frame_rates, get_sample_rates, get_codecs,
        get_streams, count_streams, find_stream_indexes,
        get_attribute_from_all_streams, get_resolution, get_frame_rate,
        get_video_codec, get_audio_codec, PyVal.get, PyVal.iter, PyVal.item,
        hlk, resolutions_from_streams, attr_from_streams, streams_filter]

/-- C9 witness: the amended robustness law applied to concrete metadata
with one field-poor video stream. -/
theorem C9_accessors_amended_witness :
    (get_resolutions (.dict [("streams",
      .list [.dict [("codec_type", .str "video")]])])).isOk = true :=
  (C9_accessors_amended.1 [("streams", .list [.dict [("codec_type", .str "video")]])]
    [.dict [("codec_type", .str "video")]] "width" Option.none
    rfl (by decide)).1

/-! ## Claim C6 — stream-index renumbering -/

/-- The claim's count: the number of removed indexes strictly below `i`. -/
def count_removed_below (removed : List Int) (i : Int) : Nat :=
  removed.countP (fun r => decide (r < i))

/-- Counting distinct integers inside a half-open interval: at most the
interval's width. -/
theorem countP_le_width (l : List Int) (p : Int → Bool) (lo hi : Int)
    (hnd : l.Nodup) (hlohi : lo ≤ hi)
    (hb : ∀ x ∈ l, p x = true → lo ≤ x ∧ x < hi) :
    (l.countP p : Int) ≤ hi - lo := by
  rw [l.countP_eq_length_filter p]
  have hfn : (l.filter p).Nodup := hnd.filter p
  have hsub : (l.filter p).toFinset ⊆ Finset.Ico lo hi := by
    intro x hx
    rw [List.mem_toFinset, List.mem_filter] at hx
    rw [Finset.mem_Ico]
    exact hb x hx.1 hx.2
  have hcard := Finset.card_le_card hsub
  rw [List.toFinset_card_of_nodup hfn, Int.card_Ico] at hcard
  calc ((l.filter p).length : Int) ≤ ((hi - lo).toNat : Int) := by exact_mod_cast hcard
    _ = hi - lo := Int.toNat_of_nonneg (by omega)

/-- On a sorted list the `takeWhile`-prefix for `≤ k` captures exactly
the elements `≤ k`. -/
theorem sorted_takeWhile_length_eq_countP (k : Int) :
    ∀ rs : List Int, rs.Pairwise (· ≤ ·) →
    (rs.takeWhile (fun r => decide (r ≤ k))).length =
      rs.countP (fun r => decide (r ≤ k)) := by
  intro rs
  induction rs with
  | nil => intro _; rfl
  | cons r rest ih =>
    intro h
    have hall : ∀ x ∈ rest, r ≤ x := fun x hx => List.rel_of_pairwise_cons h hx
    have htail := ih (List.Pairwise.of_cons h)
    by_cases hr : r ≤ k
    · simp [List.takeWhile, List.countP_cons, hr, htail]
    · have hzero : rest.countP (fun r => decide (r ≤ k)) = 0 := by
        rw [List.countP_eq_zero]
        intro x hx
        simp only [decide_eq_true_eq]
        intro hxk
        exact hr (le_trans (hall x hx) hxk)
      simp [List.takeWhile, List.countP_cons, hr, hzero]

/-- On a sorted list every element surviving `dropWhile (· ≤ k)` is
`> k`. -/
theorem sorted_mem_dropWhile_gt (k : Int) :
    ∀ rs : List Int, rs.Pairwise (· ≤ ·) →
    ∀ x ∈ rs.dropWhile (fun r => decide (r ≤ k)), k < x := by
  intro rs
  induction rs with
  | nil => intro _ x hx; simp [List.dropWhile] at hx
  | cons r rest ih =>
    intro h x hx
    have hall : ∀ y ∈ rest, r ≤ y := fun y hy => List.rel_of_pairwise_cons h hy
    by_cases hr : r ≤ k
    · rw [List.dropWhile_cons_of_pos (by simp [hr])] at hx
      exact ih (List.Pairwise.of_cons h) x hx
    · rw [List.dropWhile_cons_of_neg (by simp [hr])] at hx
      push_neg at hr
      rcases List.mem_cons.mp hx with hxr | hxr
      · omega
      · exact lt_of_lt_of_le hr (hall x hxr)

/-- Subadditivity of `countP` over a pointwise case split. -/
theorem countP_le_countP_add_countP (l : List Int) (p q r : Int → Bool)
    (h : ∀ x ∈ l, p x = true → q x = true ∨ r x = true) :
    l.countP p ≤ l.countP q + l.countP r := by
  induction l with
  | nil => simp
  | cons a t ih =>
    have ht := ih (fun x hx hpx => h x (List.mem_cons_of_mem a hx) hpx)
    by_cases hp : p a = true
    · rcases h a (List.mem_cons_self a t) hp with hq | hr
      · simp [List.countP_cons, hp, hq]
        omega
      · simp [List.countP_cons, hp, hr]
        omega
    · simp [List.countP_cons, hp]
      rcases Bool.eq_false_or_eq_true (q a) with hq | hq <;>
        rcases Bool.eq_false_or_eq_true (r a) with hr | hr <;>
        simp [hq, hr] <;> omega

/-- Splitting the below-`i` count of a sorted list at `k < i`: the
`≤ k` prefix counts wholesale, the remainder recursively. -/
theorem countP_lt_split (k i : Int) (rs : List Int) (hki : k < i) :
    rs.countP (fun r => decide (r < i)) =
      (rs.takeWhile (fun r => decide (r ≤ k))).length +
      (rs.dropWhile (fun r => decide (r ≤ k))).countP (fun r => decide (r < i)) := by
  conv_lhs => rw [← List.takeWhile_append_dropWhile
    (p := fun r => decide (r ≤ k)) (l := rs)]
  rw [List.countP_append]
  congr 1
  rw [List.countP_eq_length]
  intro a ha
  have := List.mem_takeWhile_imp ha
  simp only [decide_eq_true_eq] at this ⊢
  omega

/-- With `k` absent from the list, counting `≤ k` and counting `< k`
agree. -/
theorem countP_le_eq_countP_lt (k : Int) (rs : List Int) (hk : k ∉ rs) :
    rs.countP (fun r => decide (r ≤ k)) = rs.countP (fun r => decide (r < k)) := by
  apply List.countP_congr
  intro x hx
  have hxk : x ≠ k := fun h => hk (h ▸ hx)
  simp only [decide_eq_true_eq]
  omega

/-- A histogram entry for a key none of the remaining items carry can be
dropped. -/
theorem reindex_loop_cons_ne {α : Type} (k : Int) (b : Nat)
    (hist : List (Int × Nat)) :
    ∀ (items : List (Int × α)) (rt : Nat) (acc : List (Int × α)),
    (∀ p ∈ items, p.1 ≠ k) →
    reindex_loop ((k, b) :: hist) items rt acc =
      reindex_loop hist items rt acc := by
  intro items
  induction items with
  | nil => intro rt acc _; rfl
  | cons iv rest ih =>
    intro rt acc h
    obtain ⟨i, v⟩ := iv
    have hik : (i == k) = false := by
      have := h (i, v) (List.mem_cons_self _ _)
      simpa using this
    have hrest : ∀ p ∈ rest, p.1 ≠ k :=
      fun p hp => h p (List.mem_cons_of_mem _ hp)
    simp only [reindex_loop, List.lookup, hik]
    cases hl : List.lookup i hist with
    | none => rfl
    | some b' =>
      simp only []
      split
      · split
        · rfl
        · exact ih _ _ hrest
      · rfl

/-- The renumbering loop computes, for every retained index, the index
minus the number of removed indexes strictly below it — provided the
retained map is walked in ascending key order (which is exactly the
order the histogram was built in) and the removed indexes are distinct
and disjoint from the keys. -/
theorem reindex_loop_spec {α : Type} :
    ∀ (m : List (Int × α)) (rs : List Int) (rt : Nat) (acc : List (Int × α)),
    rs.Pairwise (· ≤ ·) →
    rs.Nodup →
    (m.map Prod.fst).Pairwise (· < ·) →
    (∀ i ∈ m.map Prod.fst, i ∉ rs) →
    (∀ i ∈ m.map Prod.fst,
      (rt : Int) + rs.countP (fun r => decide (r < i)) ≤ i) →
    (∀ a ∈ acc, ∀ i ∈ m.map Prod.fst,
      a.1 ≠ i - ((rt : Int) + rs.countP (fun r => decide (r < i)))) →
    reindex_loop (removal_histogram (m.map Prod.fst) rs) m rt acc =
      .ok (acc ++ m.map (fun p =>
        (p.1 - ((rt : Int) + rs.countP (fun r => decide (r < p.1))), p.2))) := by
  intro m
  induction m with
  | nil =>
    intro rs rt acc _ _ _ _ _ _
    simp [removal_histogram, reindex_loop]
  | cons kv m' ih =>
    intro rs rt acc hsorted hnodup hkeys hdisj hbound hacc
    obtain ⟨k, v⟩ := kv
    have hmapcons : ((⟨k, v⟩ :: m') : List (Int × α)).map Prod.fst =
        k :: m'.map Prod.fst := rfl
    rw [hmapcons] at hkeys hdisj hbound hacc ⊢
    have hk_notin : k ∉ rs := hdisj k (List.mem_cons_self _ _)
    have hk_lt : ∀ i ∈ m'.map Prod.fst, k < i :=
      fun i hi => List.rel_of_pairwise_cons hkeys hi
    have hkeys' : (m'.map Prod.fst).Pairwise (· < ·) := List.Pairwise.of_cons hkeys
    have hb_eq : (rs.takeWhile (fun r => decide (r ≤ k))).length =
        rs.countP (fun r => decide (r < k)) := by
      rw [sorted_takeWhile_length_eq_countP k rs hsorted,
        countP_le_eq_countP_lt k rs hk_notin]
    have hsorted' : (rs.dropWhile (fun r => decide (r ≤ k))).Pairwise (· ≤ ·) :=
      List.Pairwise.sublist (List.dropWhile_sublist _) hsorted
    have hnodup' : (rs.dropWhile (fun r => decide (r ≤ k))).Nodup :=
      List.Nodup.sublist (List.dropWhile_sublist _) hnodup
    have hsub : ∀ x ∈ rs.dropWhile (fun r => decide (r ≤ k)), x ∈ rs :=
      fun x hx => (List.dropWhile_sublist _).subset hx
    have hdecomp : ∀ i : Int, k < i →
        rs.countP (fun r => decide (r < i)) =
          (rs.takeWhile (fun r => decide (r ≤ k))).length +
          (rs.dropWhile (fun r => decide (r ≤ k))).countP (fun r => decide (r < i)) :=
      fun i hi => countP_lt_split k i rs hi
    have hcast : ∀ i : Int, k < i →
        ((rt + (rs.takeWhile (fun r => decide (r ≤ k))).length : Nat) : Int) +
          ((rs.dropWhile (fun r => decide (r ≤ k))).countP (fun r => decide (r < i)) : Int) =
        (rt : Int) + (rs.countP (fun r => decide (r < i)) : Int) := by
      intro i hi
      rw [hdecomp i hi]
      push_cast
      ring
    have hcast_head : ((rt + (rs.takeWhile (fun r => decide (r ≤ k))).length : Nat) : Int) =
        (rt : Int) + (rs.countP (fun r => decide (r < k)) : Int) := by
      rw [← hb_eq]
      push_cast
      ring
    have hcond1 : ((rt + (rs.takeWhile (fun r => decide (r ≤ k))).length : Nat) : Int) ≤ k := by
      rw [hcast_head]
      exact hbound k (List.mem_cons_self _ _)
    have hcond2 : (acc.any (fun q =>
        decide (q.1 = k - ((rt + (rs.takeWhile (fun r => decide (r ≤ k))).length : Nat) : Int)))) = false := by
      rw [List.any_eq_false]
      rintro ⟨a1, a2⟩ ha
      have := hacc (a1, a2) ha k (List.mem_cons_self _ _)
      simp only [decide_eq_true_eq]
      rw [hcast_head]
      exact this
    have hstep :
        reindex_loop (removal_histogram (k :: m'.map Prod.fst) rs)
          ((k, v) :: m') rt acc =
        reindex_loop
          ((k, (rs.takeWhile (fun r => decide (r ≤ k))).length) ::
            removal_histogram (m'.map Prod.fst) (rs.dropWhile (fun r => decide (r ≤ k))))
          m' (rt + (rs.takeWhile (fun r => decide (r ≤ k))).length)
          (acc ++ [(k - ((rt + (rs.takeWhile (fun r => decide (r ≤ k))).length : Nat) : Int), v)]) := by
      simp only [removal_histogram, reindex_loop, List.lookup, beq_self_eq_true]
      rw [if_pos hcond1]
      simp only [hcond2, Bool.false_eq_true, if_false]
    rw [hstep]
    rw [reindex_loop_cons_ne _ _ _ m' _ _
      (fun p hp => ne_of_gt (hk_lt p.1 (List.mem_map_of_mem Prod.fst hp)))]
    rw [ih (rs.dropWhile (fun r => decide (r ≤ k)))
      (rt + (rs.takeWhile (fun r => decide (r ≤ k))).length)
      (acc ++ [(k - ((rt + (rs.takeWhile (fun r => decide (r ≤ k))).length : Nat) : Int), v)])
      hsorted' hnodup' hkeys'
      (fun i hi hmem => hdisj i (List.mem_cons_of_mem _ hi) (hsub i hmem))
      ?_ ?_]
  
    · -- assemble the final list
      rw [List.append_assoc, List.map_cons, List.singleton_append]
      have hhead : (k - ((rt + (rs.takeWhile (fun r => decide (r ≤ k))).length : Nat) : Int), v) =
          (((k, v) : Int × α).1 -
            ((rt : Int) + (rs.countP (fun r => decide (r < ((k, v) : Int × α).1)) : Int)),
           ((k, v) : Int × α).2) := by
        dsimp only
        rw [hcast_head]
      have htail : (m'.map fun p =>
            (p.1 - (((rt + (rs.takeWhile (fun r => decide (r ≤ k))).length : Nat) : Int) +
              ((rs.dropWhile (fun r => decide (r ≤ k))).countP
                (fun r => decide (r < p.1)) : Int)), p.2)) =
          (m'.map fun p =>
            (p.1 - ((rt : Int) + (rs.countP (fun r => decide (r < p.1)) : Int)), p.2)) := by
        apply List.map_congr_left
        intro p hp
        dsimp only
        rw [hcast p.1 (hk_lt p.1 (List.mem_map_of_mem Prod.fst hp))]
      rw [hhead, htail]
    · -- bound for the recursive call
      intro i hi
      have hkp : k < i := hk_lt i hi
      rw [hcast i hkp]
      exact hbound i (List.mem_cons_of_mem _ hi)
    · -- freshness for the recursive call
      intro a ha i hi
      have hkp : k < i := hk_lt i hi
      rw [hcast i hkp]
      rcases List.mem_append.mp ha with ha | ha
      · exact hacc a ha i (List.mem_cons_of_mem _ hi)
      · have ha' : a = (k - ((rt + (rs.takeWhile (fun r => decide (r ≤ k))).length : Nat) : Int), v) := by
          simpa using ha
        subst ha'
        simp only []
        have hcnt : ((rs.dropWhile (fun r => decide (r ≤ k))).countP
            (fun r => decide (r < i)) : Int) ≤ i - (k + 1) := by
          apply countP_le_width _ _ (k + 1) i hnodup' (by omega)
          intro x hx hxlt
          have := sorted_mem_dropWhile_gt k rs hsorted x hx
          simp only [decide_eq_true_eq] at hxlt
          omega
        have hsplit := hdecomp i hkp
        intro hcontr
        omega

/-- Between two retained indexes `i < j` (with `i` not removed and the
removed indexes distinct) at most `j - i - 1` removed indexes lie
strictly between them, so the below-counts differ by less than `j - i`. -/
theorem count_removed_below_gap (removed : List Int) (hnodup : removed.Nodup)
    (i j : Int) (hij : i < j) (hi : i ∉ removed) :
    (removed.countP (fun r => decide (r < j)) : Int) ≤
      removed.countP (fun r => decide (r < i)) + (j - i - 1) := by
  have h1 : removed.countP (fun r => decide (r < j)) ≤
      removed.countP (fun r => decide (r < i)) +
      removed.countP (fun r => decide (i ≤ r ∧ r < j)) := by
    apply countP_le_countP_add_countP
    intro x _ hpx
    simp only [decide_eq_true_eq] at hpx ⊢
    by_cases hxi : x < i
    · exact Or.inl hxi
    · exact Or.inr ⟨by omega, hpx⟩
  have h2 : (removed.countP (fun r => decide (i ≤ r ∧ r < j)) : Int) ≤
      j - (i + 1) := by
    apply countP_le_width removed _ (i + 1) j hnodup (by omega)
    intro x hx hpx
    simp only [decide_eq_true_eq] at hpx
    have hxi : x ≠ i := fun h => hi (h ▸ hx)
    omega
  omega

/-- `pySorted` is insertion sort (definitional). -/
theorem pySorted_eq (xs : List Int) : pySorted xs = xs.insertionSort (· ≤ ·) := rfl

/-- C6 (amended): `adjust_stream_indexes_for_removals` maps each
retained index `i` to `i` minus the number of removed indexes strictly
below `i`, keeping its value, with no adjusted index exceeding its
original and no collisions — **provided** the retained map's insertion
order is ascending (CPython dictionaries are insertion-ordered and the
final loop walks that order while the histogram is keyed by *sorted*
order) and the removed indexes are distinct; the claim's concrete
example satisfies both and evaluates exactly as stated. -/
theorem C6_adjust_amended :
    (∀ (α : Type) (m : List (Int × α)) (removed : List Int),
      (m.map Prod.fst).Pairwise (· < ·) →
      removed.Nodup →
      (∀ i ∈ m.map Prod.fst, i ∉ removed) →
      (∀ i ∈ m.map Prod.fst, 0 ≤ i) →
      (∀ r ∈ removed, 0 ≤ r) →
      adjust_stream_indexes_for_removals m removed =
        .ok (m.map (fun p => (p.1 - (count_removed_below removed p.1 : Int), p.2))) ∧
      (∀ p ∈ m, p.1 - (count_removed_below removed p.1 : Int) ≤ p.1) ∧
      (m.map (fun p => p.1 - (count_removed_below removed p.1 : Int))).Nodup) ∧
    adjust_stream_indexes_for_removals
      [((4 : Int), "A"), (7, "B"), (9, "C")] [10, 1, 0, 5, 8] =
      .ok [(2, "A"), (4, "B"), (5, "C")] := by
  constructor
  · intro α m removed hkeys hnodupR hdisj hnnK hnnR
    have hA : ((m.map Prod.fst).any fun i => removed.contains i) = false := by
      rw [List.any_eq_false]
      intro i hi
      simp only [Bool.not_eq_true]
      rcases Bool.eq_false_or_eq_true (removed.contains i) with h | h
      · exact absurd (List.elem_iff.mp h) (hdisj i hi)
      · exact h
    have hB : ((m.map Prod.fst ++ removed).all fun i => decide (0 ≤ i)) = true := by
      rw [List.all_eq_true]
      intro i hi
      rcases List.mem_append.mp hi with h | h
      · simpa using hnnK i h
      · simpa using hnnR i h
    refine ⟨?_, ?_, ?_⟩
    · -- the evaluation
      unfold adjust_stream_indexes_for_removals
      simp only [hA, Bool.false_eq_true, if_false, hB, not_true, if_false]
      cases m with
      | nil => simp
      | cons hd tl =>
        simp only [List.isEmpty_cons, Bool.false_eq_true, if_false]
        rw [pySorted_eq, pySorted_eq]
        have hsortedK : List.Sorted (· ≤ ·) ((hd :: tl).map Prod.fst) :=
          hkeys.imp (fun h => le_of_lt h)
        have hperm := List.perm_insertionSort (· ≤ ·) removed
        rw [hsortedK.insertionSort_eq]
        rw [reindex_loop_spec (hd :: tl) (removed.insertionSort (· ≤ ·)) 0 []
          (List.sorted_insertionSort _ removed)
          (hperm.nodup_iff.mpr hnodupR)
          hkeys
          (fun i hi hmem => hdisj i hi (hperm.subset hmem))
          ?_
          (fun a ha => absurd ha (List.not_mem_nil a))]
        · congr 1
          rw [List.nil_append]
          apply List.map_congr_left
          intro p hp
          have hcp : (removed.insertionSort (· ≤ ·)).countP (fun r => decide (r < p.1)) =
              removed.countP (fun r => decide (r < p.1)) := hperm.countP_eq _
          rw [hcp]
          simp [count_removed_below]
        · intro i hi
          have hcp : (removed.insertionSort (· ≤ ·)).countP (fun r => decide (r < i)) =
              removed.countP (fun r => decide (r < i)) := hperm.countP_eq _
          rw [hcp]
          have hcnt : (removed.countP (fun r => decide (r < i)) : Int) ≤ i - 0 := by
            apply countP_le_width removed _ 0 i hnodupR (hnnK i hi)
            intro x hx hpx
            simp only [decide_eq_true_eq] at hpx
            exact ⟨hnnR x hx, hpx⟩
          push_cast
          omega
    · -- never exceeds the original index
      intro p _
      have h0 : (0 : Int) ≤ (count_removed_below removed p.1 : Int) := Int.ofNat_nonneg _
      omega
    · -- no collisions after adjustment
      have hmp : m.Pairwise (fun a b : Int × α => a.1 < b.1) :=
        List.pairwise_map.mp hkeys
      have : m.Pairwise (fun a b : Int × α =>
          a.1 - (count_removed_below removed a.1 : Int) ≠
          b.1 - (count_removed_below removed b.1 : Int)) := by
        apply List.Pairwise.imp_of_mem ?_ hmp
        intro a b ha hb hab
        have hgap := count_removed_below_gap removed hnodupR a.1 b.1 hab
          (hdisj a.1 (List.mem_map_of_mem Prod.fst ha))
        simp only [count_removed_below] at *
        intro heq
        omega
      exact List.pairwise_map.mpr this
  · rfl

/-- C6 (counterexample): with a retained map whose insertion order is
descending — `{7: 'B', 4: 'A'}` — and removed list `[5]`, the function
returns `{6: 'B', 3: 'A'}`, but the claim's formula maps retained index
4 to 4 (no removed index is below 4): the running prefix-sum walks the
map in insertion order while the histogram is keyed in sorted order, so
index 4 absorbs the bucket of index 7. -/
theorem C6_counterexample :
    adjust_stream_indexes_for_removals [((7 : Int), "B"), (4, "A")] [5] =
      .ok [(6, "B"), (3, "A")] ∧
    (4 : Int) - (count_removed_below [5] 4 : Int) = 4 := by
  exact ⟨rfl, by decide⟩

/-- C6 witness: the amended law applied at the claim's concrete example
`adjustStreamIndexesForRemovals({4:'A',7:'B',9:'C'}, [10,1,0,5,8])`. -/
theorem C6_adjust_amended_witness :
    adjust_stream_indexes_for_removals
      [((4 : Int), "A"), (7, "B"), (9, "C")] [10, 1, 0, 5, 8] =
      .ok [(2, "A"), (4, "B"), (5, "C")] := by
  have h := (C6_adjust_amended.1 String
    [((4 : Int), "A"), (7, "B"), (9, "C")] [10, 1, 0, 5, 8]
    (by decide) (by decide) (by decide) (by decide) (by decide)).1
  rw [h]
  rfl
